import Mathlib

/-!
Verification development for the semantic-lowering layer of the triton
repository: the frontend type algebra and the dispatcher in
src/lib/ir/dispatch.cc, and the function inliner in
src/lib/codegen/transform/inline.cc.

Each definition is a shallow embedding of the corresponding C++ function,
translated clause by clause.  IR emission is modelled as a trace of emitted
instructions threaded through every dispatch operation; failures are the
explicit error values the source throws (semantic_error, std::runtime_error,
throw_unreachable).
-/

deriving instance DecidableEq for Except

namespace Triton

/-- ast::type::signedness (include/triton/ast/type.h). -/
inductive Signedness where
  | signed
  | unsigned
deriving DecidableEq, Repr

/-- Scalar ir::type kinds: the IR level has widths but no signedness.
int1 is the bool type; pointers carry a pointee and an address space. -/
inductive IRScalar where
  | void
  | fp8
  | fp16
  | bf16
  | fp32
  | fp64
  | int (width : Nat)
  | ptr (pointee : IRScalar) (addrSpace : Nat)
deriving DecidableEq, Repr

/-- An ir::type is a scalar or a block (tile) of a scalar with a shape. -/
inductive IRType where
  | scalar (k : IRScalar)
  | block (elem : IRScalar) (shape : List Nat)
deriving DecidableEq, Repr

namespace IRScalar

/-- ir::type::is_floating_point_ty for scalars. -/
def isFloating : IRScalar → Bool
  | fp8 | fp16 | bf16 | fp32 | fp64 => true
  | _ => false

/-- ir::type::is_integer_ty for scalars. -/
def isInteger : IRScalar → Bool
  | int _ => true
  | _ => false

/-- ir::type::is_pointer_ty for scalars. -/
def isPointer : IRScalar → Bool
  | ptr _ _ => true
  | _ => false

/-- ir::type::is_bool_ty: the 1-bit integer type. -/
def isBool : IRScalar → Bool
  | int 1 => true
  | _ => false

/-- ir::type::get_integer_bitwidth (0 when not an integer; the source
only reads it on integer types). -/
def intBitwidth : IRScalar → Nat
  | int w => w
  | _ => 0

/-- ir::type::get_fp_mantissa_width. -/
def mantissaWidth : IRScalar → Nat
  | fp8 => 3
  | fp16 => 10
  | bf16 => 7
  | fp32 => 23
  | fp64 => 52
  | _ => 0

/-- ir::type::get_primitive_size_in_bits. -/
def primSizeBits : IRScalar → Nat
  | fp8 => 8
  | fp16 => 16
  | bf16 => 16
  | fp32 => 32
  | fp64 => 64
  | int w => w
  | ptr _ _ => 64
  | void => 0

/-- ir::type::get_pointer_element_ty. -/
def pointee : IRScalar → IRScalar
  | ptr p _ => p
  | k => k

/-- ir::type::get_pointer_address_space. -/
def addrSpaceOf : IRScalar → Nat
  | ptr _ a => a
  | _ => 0

/-- ir::type::repr for scalar types (message text only). -/
def reprStr : IRScalar → String
  | void => "void"
  | fp8 => "fp8"
  | fp16 => "fp16"
  | bf16 => "bf16"
  | fp32 => "fp32"
  | fp64 => "fp64"
  | int w => "int" ++ toString w
  | ptr p _ => reprStr p ++ "*"

end IRScalar

namespace IRType

/-- The scalar element: ir::type::get_scalar_ty. -/
def scalarKind : IRType → IRScalar
  | scalar k => k
  | block e _ => e

/-- ir::type::is_block_ty. -/
def isBlock : IRType → Bool
  | block _ _ => true
  | _ => false

/-- ir::type::get_block_shapes (empty for scalars; the source only reads
it on block types). -/
def blockShapes : IRType → List Nat
  | block _ s => s
  | scalar _ => []

/-- ir::type::get_tile_num_elements: product of the shape (1 for scalars). -/
def numElements : IRType → Nat
  | scalar _ => 1
  | block _ s => s.foldl (· * ·) 1

/-- Replace the scalar element, keeping the shape. -/
def withScalar : IRType → IRScalar → IRType
  | scalar _, k => scalar k
  | block _ s, k => block k s

/-- ir::type predicates lifted to possibly-block types: a block type is
not itself fp32/integer/... (matches ir::type, where e.g. is_fp32_ty
checks the type id of the block type, not of its element). -/
def isFp16 : IRType → Bool
  | scalar .fp16 => true
  | _ => false

def isFp32 : IRType → Bool
  | scalar .fp32 => true
  | _ => false

def isFp64 : IRType → Bool
  | scalar .fp64 => true
  | _ => false

def isIntegerTy : IRType → Bool
  | scalar (.int _) => true
  | _ => false

def reprStr : IRType → String
  | scalar k => k.reprStr
  | block e s => "block<" ++ e.reprStr ++ "," ++ toString s ++ ">"

end IRType

/-- ast::type (include/triton/ast/type.h): an ir::type together with a
frontend signedness.  The ast::context canonicalizes these by the pair
(ir_type, signedness), so structural equality here is the pointer
equality of the source. -/
structure AstType where
  irTy : IRType
  sn : Signedness
deriving DecidableEq, Repr

namespace AstType

/-- ast::type::get_scalar_ty: project a block type to its element, keeping
the signedness. -/
def scalarTy (t : AstType) : AstType := ⟨.scalar t.irTy.scalarKind, t.sn⟩

def isBlock (t : AstType) : Bool := t.irTy.isBlock

/-- ast::type::is_integer_signed. -/
def isSigned (t : AstType) : Bool := t.sn = .signed

def isFloating (t : AstType) : Bool := t.irTy.scalarKind.isFloating ∧ ¬ t.irTy.isBlock

/-- ast::type::repr delegates to the ir type. -/
def reprStr (t : AstType) : String := t.irTy.reprStr

end AstType

/-- Canonical scalar frontend types minted by the ast::context factory
methods (floats and int1 default to SIGNED signedness). -/
def fp16T : AstType := ⟨.scalar .fp16, .signed⟩
def fp32T : AstType := ⟨.scalar .fp32, .signed⟩
def fp64T : AstType := ⟨.scalar .fp64, .signed⟩
def bf16T : AstType := ⟨.scalar .bf16, .signed⟩
def fp8T : AstType := ⟨.scalar .fp8, .signed⟩
def int1T : AstType := ⟨.scalar (.int 1), .signed⟩
def int32T : AstType := ⟨.scalar (.int 32), .signed⟩
def int64T : AstType := ⟨.scalar (.int 64), .signed⟩
def uint32T : AstType := ⟨.scalar (.int 32), .unsigned⟩

/-- Integer scalar frontend type of a given width and signedness. -/
def intT (w : Nat) (sn : Signedness) : AstType := ⟨.scalar (.int w), sn⟩

/-- Error kinds: semantic_error (dispatch.h), plain std::runtime_error,
and throw_unreachable (dispatch.cc). -/
inductive ErrKind where
  | semantic
  | runtime
  | unreachable
deriving DecidableEq, Repr

structure Err where
  kind : ErrKind
  msg : String
deriving DecidableEq, Repr

/-- throw_unreachable (dispatch.cc line 877). -/
def unreachableErr (key : String) : Err :=
  ⟨.unreachable, "Encountered unimplemented code path in `" ++ key ++
    "`. This is likely a bug on our side."⟩

/-- DivOrMod (dispatch.cc line 918). -/
inductive DivOrMod where
  | no
  | yes
deriving DecidableEq, Repr

/-- integer_promote (dispatch.cc lines 900-916): usual-arithmetic-conversion
signedness rules.  Both arguments are scalar integer frontend types. -/
def integer_promote (a_ty b_ty : AstType) : Except Err AstType :=
  let a_rank := a_ty.irTy.scalarKind.intBitwidth
  let b_rank := b_ty.irTy.scalarKind.intBitwidth
  let a_sn := a_ty.sn
  let b_sn := b_ty.sn
  if a_sn = b_sn then
    .ok (if a_rank > b_rank then a_ty else b_ty)
  else if a_sn = .unsigned then
    .ok (if a_rank ≥ b_rank then a_ty else b_ty)
  else if b_sn = .unsigned then
    .ok (if b_rank ≥ a_rank then b_ty else a_ty)
  else
    .error (unreachableErr "integer_promote")

/-- The semantic_error message thrown by computation_type for mixed
signedness under division or modulo (dispatch.cc line 944). -/
def divmodSignednessMsg (a_ty b_ty : AstType) : String :=
  "Cannot use /, //, or % with " ++ a_ty.reprStr ++ " and " ++ b_ty.reprStr ++
  " because they have different signedness; this is unlikely to result in a useful answer. Cast them to the same signedness."

/-- computation_type (dispatch.cc lines 920-947): implicit numeric
promotion of two scalar frontend types. -/
def computation_type (a_ty b_ty : AstType) (div_or_mod : DivOrMod) : Except Err AstType :=
  if a_ty.irTy.isFp64 ∨ b_ty.irTy.isFp64 then
    .ok fp64T
  else if a_ty.irTy.isFp32 ∨ b_ty.irTy.isFp32 then
    .ok fp32T
  else if a_ty.irTy.isFp16 ∨ b_ty.irTy.isFp16 then
    (if div_or_mod = .yes then .ok fp32T else .ok fp16T)
  else if ¬ a_ty.irTy.isIntegerTy ∨ ¬ b_ty.irTy.isIntegerTy then
    .error (unreachableErr "computation_type")
  else if div_or_mod = .yes ∧ a_ty.sn ≠ b_ty.sn then
    .error ⟨.semantic, divmodSignednessMsg a_ty b_ty⟩
  else
    integer_promote a_ty b_ty

/-! ## IR values, instructions and the emission trace

The ir::builder is modelled as a growing trace of emitted instructions.
An ir::value is either a pre-existing value (argument of the kernel), a
constant, an undef value, or the result of the n-th emitted instruction. -/

/-- ir::value identities. -/
inductive IRVal where
  | arg (n : Nat)
  | constInt (ty : IRType) (v : Int)
  | constFloat (ty : IRType) (v : Int)
  | undef (ty : IRType)
  | res (n : Nat)
deriving DecidableEq, Repr

/-- Binary arithmetic / bitwise instruction opcodes of the ir::builder. -/
inductive BinOp where
  | fadd | fsub | fmul | fdiv | frem
  | add | sub | mul | sdiv | udiv | srem | urem
  | and | or | xor | shl | lshr
deriving DecidableEq, Repr

/-- Comparison predicates (fcmp ordered / unordered-NE, icmp signed and
unsigned). -/
inductive CmpPred where
  | fOEQ | fUNE | fOGT | fOGE | fOLT | fOLE
  | iEQ | iNE | iSGT | iSGE | iSLT | iSLE | iUGT | iUGE | iULT | iULE
deriving DecidableEq, Repr

/-- Cast instruction opcodes emitted by dispatch::cast / dispatch::bitcast. -/
inductive CastOp where
  | fpTrunc
  | fpExt
  | intCast (signExtend : Bool)
  | fpToUi
  | fpToSi
  | uiToFp
  | siToFp
  | ptrToInt
  | intToPtr
  | bitCast
deriving DecidableEq, Repr

/-- load_inst::CACHE_MODIFIER. -/
inductive Cache where
  | NONE | CA | CG
deriving DecidableEq, Repr

/-- ir::atomic_rmw_op_t. -/
inductive RmwOp where
  | Add | FAdd | And | Or | Xor | Max | Min | UMax | UMin | Xchg
deriving DecidableEq, Repr

/-- The instructions emitted by the dispatch operations under study. -/
inductive Instr where
  | splat (v : IRVal) (shape : List Nat)
  | broadcastI (v : IRVal) (shape : List Nat)
  | gep (base : IRVal) (offset : IRVal)
  | bin (op : BinOp) (a b : IRVal)
  | cmp (pred : CmpPred) (a b : IRVal)
  | castI (op : CastOp) (v : IRVal)
  | loadI (p : IRVal) (cache : Cache) (isVolatile : Bool)
  | maskedLoad (p mask other : IRVal) (cache : Cache) (isVolatile : Bool)
  | atomicRmw (op : RmwOp) (p v mask : IRVal)
  | select (cond a b : IRVal)
deriving DecidableEq, Repr

/-- Is this emitted instruction one of the arithmetic binary operations?
(Used to state that failed dispatches emit no arithmetic instruction.) -/
def Instr.isArith : Instr → Bool
  | .bin _ _ _ => true
  | _ => false

/-- Is this an atomic read-modify-write instruction? -/
def Instr.isRmw : Instr → Bool
  | .atomicRmw _ _ _ _ => true
  | _ => false

/-- Append one instruction to the trace; its result is IRVal.res of its
position. -/
def emit (i : Instr) (tr : List Instr) : IRVal × List Instr :=
  (.res tr.length, tr ++ [i])

/-- ast::value (include/triton/ast/value.h): an ir::value handle together
with the frontend type attached by ast::context::create_value.  The model
additionally records the type of the underlying ir::value (irTy), which can
legitimately differ from the frontend type, exactly as in the source. -/
structure Value where
  irVal : IRVal
  irTy : IRType
  ty : AstType
deriving DecidableEq, Repr

/-- A value is well formed when its frontend type agrees with the type of
the ir::value it wraps. -/
def Value.wf (v : Value) : Prop := v.irTy = v.ty.irTy

/-! ## Broadcasting (dispatch::broadcast, both variants) -/

/-- Shape-targeted broadcast (dispatch.cc lines 1335-1349):
broadcast(input, shape). -/
def broadcast1 (input : Value) (shape : List Nat) (tr : List Instr) :
    Except Err Value × List Instr :=
  if ¬ input.ty.isBlock then
    let (r, tr) := emit (.splat input.irVal shape) tr
    (.ok ⟨r, .block input.irTy.scalarKind shape,
          ⟨.block input.irTy.scalarKind shape, input.ty.sn⟩⟩, tr)
  else
    let srcShape := input.ty.irTy.blockShapes
    if srcShape.length ≠ shape.length then
      (.error ⟨.runtime, "Cannot broadcast"⟩, tr)
    else if shape = srcShape then
      (.ok input, tr)
    else
      let (r, tr) := emit (.broadcastI input.irVal shape) tr
      (.ok ⟨r, .block input.irTy.scalarKind shape,
            ⟨.block input.irTy.scalarKind shape, input.ty.sn⟩⟩, tr)

/-- The rank-mismatch error of pairwise make_shape_compatible
(dispatch.cc line 1366). -/
def rankMismatchErr : Err :=
  ⟨.runtime, "Cannot make_shape_compatible: blocks must have the same rank"⟩

/-- The per-dimension incompatibility error of pairwise
make_shape_compatible (dispatch.cc lines 1378-1379). -/
def dimMismatchErr (i left right : Nat) : Err :=
  ⟨.runtime, "Cannot make_shape_compatible: incompatible dimensions at index " ++
    toString i ++ ": " ++ toString left ++ " and " ++ toString right⟩

/-- The common-shape loop of pairwise broadcast (dispatch.cc lines
1367-1380), carrying the running index for the error message. -/
def compatShape : List Nat → List Nat → Nat → Except Err (List Nat)
  | [], _, _ => .ok []
  | _ :: _, [], _ => .ok []
  | left :: ls, right :: rs, i =>
    if left = 1 then
      (compatShape ls rs (i + 1)).map (right :: ·)
    else if right = 1 then
      (compatShape ls rs (i + 1)).map (left :: ·)
    else if left = right then
      (compatShape ls rs (i + 1)).map (left :: ·)
    else
      .error (dimMismatchErr i left right)

/-- The three legal dimension combinations of make_shape_compatible:
(1, k), (k, 1) and (k, k). -/
def dimCompat (left right : Nat) : Prop := left = 1 ∨ right = 1 ∨ left = right

instance (left right : Nat) : Decidable (dimCompat left right) := by
  unfold dimCompat
  infer_instance

/-- Pairwise broadcast (dispatch.cc lines 1351-1387).  Note that in every
branch the frontend type attached to a freshly splatted or broadcast value
is the original frontend type of that side (lhs_ty / rhs_ty), while the
emitted ir::value has the widened block type. -/
def broadcastPair (lhs rhs : Value) (tr : List Instr) :
    Except Err (Value × Value) × List Instr :=
  let lhsTy := lhs.ty
  let rhsTy := rhs.ty
  if lhsTy.isBlock ∧ ¬ rhsTy.isBlock then
    let (r, tr) := emit (.splat rhs.irVal lhsTy.irTy.blockShapes) tr
    (.ok (lhs, ⟨r, .block rhs.irTy.scalarKind lhsTy.irTy.blockShapes, rhsTy⟩), tr)
  else if ¬ lhsTy.isBlock ∧ rhsTy.isBlock then
    let (l, tr) := emit (.splat lhs.irVal rhsTy.irTy.blockShapes) tr
    (.ok (⟨l, .block lhs.irTy.scalarKind rhsTy.irTy.blockShapes, lhsTy⟩, rhs), tr)
  else if lhsTy.isBlock ∧ rhsTy.isBlock then
    let lhsShape := lhsTy.irTy.blockShapes
    let rhsShape := rhsTy.irTy.blockShapes
    if lhsShape.length ≠ rhsShape.length then
      (.error rankMismatchErr, tr)
    else
      match compatShape lhsShape rhsShape 0 with
      | .error e => (.error e, tr)
      | .ok retShape =>
        let (lhs, tr) :=
          if lhsShape ≠ retShape then
            let (l, tr) := emit (.broadcastI lhs.irVal retShape) tr
            (⟨l, .block lhs.irTy.scalarKind retShape, lhsTy⟩, tr)
          else (lhs, tr)
        let (rhs, tr) :=
          if rhsShape ≠ retShape then
            let (r, tr) := emit (.broadcastI rhs.irVal retShape) tr
            (⟨r, .block rhs.irTy.scalarKind retShape, rhsTy⟩, tr)
          else (rhs, tr)
        (.ok (lhs, rhs), tr)
  else
    (.ok (lhs, rhs), tr)

/-! ## Casting and binary-operator type checking

dispatch::cast, dispatch::not_equal and binary_op_type_checking are mutually
recursive in the source (cast of a pointer to int1 re-enters not_equal,
whose type checking casts its operands).  The recursion always terminates
after at most two rounds; the embedding makes that explicit with a fuel
parameter, and the top-level wrappers fix a fuel that is never exhausted. -/

namespace AstType

/-- ast::type::is_pointer_ty (true only for scalar pointer types). -/
def isPointerTy (t : AstType) : Bool :=
  match t.irTy with
  | .scalar k => k.isPointer
  | _ => false

/-- ast::type::is_floating_point_ty (true only for scalar float types). -/
def isFloatingPointTy (t : AstType) : Bool :=
  match t.irTy with
  | .scalar k => k.isFloating
  | _ => false

/-- ast::type::is_integer_ty (true only for scalar integer types). -/
def isIntegerTy (t : AstType) : Bool :=
  match t.irTy with
  | .scalar k => k.isInteger
  | _ => false

/-- ast::type::is_bool_ty (the scalar 1-bit integer type). -/
def isBoolTy (t : AstType) : Bool :=
  match t.irTy with
  | .scalar k => k.isBool
  | _ => false

/-- ast::type::get_integer_bitwidth (on scalar integer types). -/
def intBitwidth (t : AstType) : Nat := t.irTy.scalarKind.intBitwidth

/-- ast::type::get_fp_mantissa_width. -/
def mantissa (t : AstType) : Nat := t.irTy.scalarKind.mantissaWidth

/-- ast::type::get_pointer_element_ty as a frontend type. -/
def pointeeTy (t : AstType) : AstType := ⟨.scalar t.irTy.scalarKind.pointee, t.sn⟩

end AstType

/-- throw_incompatible_types (dispatch.cc lines 953-955). -/
def incompatibleTypesErr (type_a type_b : AstType) : Err :=
  ⟨.semantic, "invalid operands of type " ++ type_a.reprStr ++ " and " ++ type_b.reprStr⟩

/-- check_ptr_type (dispatch.cc lines 957-968): pointer-arithmetic checks on
the two scalar operand types. -/
def check_ptr_type (type_a type_b : AstType) (allow_ptr_a : Bool) : Except Err Unit :=
  if type_a.isPointerTy then
    if ¬ allow_ptr_a then .error (incompatibleTypesErr type_a type_b)
    else if type_b.isPointerTy ∧ type_a ≠ type_b then
      .error (incompatibleTypesErr type_a type_b)
    else if type_b.isFloatingPointTy then
      .error (incompatibleTypesErr type_a type_b)
    else .ok ()
  else .ok ()

/-- Fuel exhaustion marker.  This is an artifact of embedding the
terminating mutual recursion of cast / not_equal; it is unreachable at the
fuel the wrappers use. -/
def fuelErr : Err := ⟨.runtime, "recursion fuel exhausted"⟩

/-- The int64 zero constant value built by builder->get_int64(0) wrapped by
ctx->create_value (signedness defaults to SIGNED). -/
def int64Zero : Value :=
  ⟨.constInt (.scalar (.int 64)) 0, .scalar (.int 64), int64T⟩

mutual

/-- dispatch::cast (dispatch.cc lines 1410-1481), fuel-indexed. -/
def castF : Nat → Value → AstType → List Instr → Except Err Value × List Instr
  | 0, _, _, tr => (.error fuelErr, tr)
  | fuel + 1, input, dstTy0, tr =>
    let srcTy := input.ty
    let dstTy :=
      if srcTy.isBlock then
        ⟨.block dstTy0.irTy.scalarKind srcTy.irTy.blockShapes, srcTy.sn⟩
      else dstTy0
    if srcTy = dstTy then (.ok input, tr)
    else
      let srcSca := srcTy.scalarTy
      let dstSca := dstTy.scalarTy
      -- FP truncation
      if srcSca.isFloatingPointTy ∧ dstSca.isFloatingPointTy ∧
          srcSca.mantissa > dstSca.mantissa then
        let (r, tr) := emit (.castI .fpTrunc input.irVal) tr
        (.ok ⟨r, dstTy.irTy, dstTy⟩, tr)
      -- FP extension
      else if srcSca.isFloatingPointTy ∧ dstSca.isFloatingPointTy ∧
          srcSca.mantissa < dstSca.mantissa then
        let (r, tr) := emit (.castI .fpExt input.irVal) tr
        (.ok ⟨r, dstTy.irTy, dstTy⟩, tr)
      -- Int cast
      else if srcSca.isIntegerTy ∧ dstSca.isIntegerTy ∧
          (srcSca.intBitwidth ≠ dstSca.intBitwidth ∨ srcSca.sn ≠ dstSca.sn) then
        let signExtend : Bool := srcSca.isSigned ∧ srcSca.irTy ≠ .scalar (.int 1)
        let (r, tr) := emit (.castI (.intCast signExtend) input.irVal) tr
        (.ok ⟨r, dstTy.irTy, dstTy⟩, tr)
      -- Float -> Int
      else if srcSca.isFloatingPointTy ∧ dstSca.isIntegerTy then
        if dstSca.isBoolTy then
          let (r, tr) := emit (.castI .fpToUi input.irVal) tr
          (.ok ⟨r, dstTy.irTy, dstTy⟩, tr)
        else
          let (r, tr) := emit (.castI .fpToSi input.irVal) tr
          (.ok ⟨r, dstTy.irTy, dstTy⟩, tr)
      -- Int -> Float
      else if srcSca.isIntegerTy ∧ dstSca.isFloatingPointTy then
        if srcSca.isBoolTy ∨ ¬ srcSca.isSigned then
          let (r, tr) := emit (.castI .uiToFp input.irVal) tr
          (.ok ⟨r, dstTy.irTy, dstTy⟩, tr)
        else
          let (r, tr) := emit (.castI .siToFp input.irVal) tr
          (.ok ⟨r, dstTy.irTy, dstTy⟩, tr)
      -- pointer -> int (widths 64 and 1; other widths fall through)
      else if srcSca.isPointerTy ∧ dstSca.isIntegerTy ∧
          (dstSca.intBitwidth = 64 ∨ dstSca.intBitwidth = 1) then
        if dstSca.intBitwidth = 64 then
          let (r, tr) := emit (.castI .ptrToInt input.irVal) tr
          (.ok ⟨r, dstTy.irTy, dstTy⟩, tr)
        else
          match castF fuel input int64T tr with
          | (.error e, tr) => (.error e, tr)
          | (.ok asInt, tr) => not_equalF fuel asInt int64Zero tr
      -- (anything but pointer) -> pointer
      else if ¬ srcSca.isPointerTy ∧ dstSca.isPointerTy then
        let (r, tr) := emit (.castI .intToPtr input.irVal) tr
        (.ok ⟨r, dstTy.irTy, dstTy⟩, tr)
      -- Ptr -> Ptr
      else if srcSca.isPointerTy ∧ dstSca.isPointerTy then
        let (r, tr) := emit (.castI .bitCast input.irVal) tr
        (.ok ⟨r, dstTy.irTy, dstTy⟩, tr)
      -- * -> Bool
      else if dstSca.isBoolTy then
        let step : Except Err Value × List Instr :=
          if srcSca.isPointerTy then castF fuel input int64T tr
          else (.ok input, tr)
        match step with
        | (.error e, tr) => (.error e, tr)
        | (.ok input, tr) =>
          let other := int64Zero
          let (other, tr) :=
            if srcTy.isBoolTy then
              let (o, tr) := emit (.splat other.irVal srcTy.irTy.blockShapes) tr
              (⟨o, .block (.int 64) srcTy.irTy.blockShapes, dstTy⟩, tr)
            else (other, tr)
          let (r, tr) := emit (.cmp .iNE input.irVal other.irVal) tr
          (.ok ⟨r, input.irTy.withScalar (.int 1), dstTy⟩, tr)
      else
        (.error (unreachableErr
          ("casting from " ++ srcSca.reprStr ++ " to " ++ dstSca.reprStr)), tr)

/-- binary_op_type_checking (dispatch.cc lines 970-986), fuel-indexed. -/
def binary_op_type_checkingF :
    Nat → Value → Value → Bool → Bool → Bool → DivOrMod → List Instr →
    Except Err (Value × Value) × List Instr
  | 0, _, _, _, _, _, _, tr => (.error fuelErr, tr)
  | fuel + 1, lhs, rhs, allow_lhs_ptr, allow_rhs_ptr, arithmetic_check, div_or_mod, tr =>
    match broadcastPair lhs rhs tr with
    | (.error e, tr) => (.error e, tr)
    | (.ok (lhs, rhs), tr) =>
      let lhsSca := lhs.ty.scalarTy
      let rhsSca := rhs.ty.scalarTy
      match check_ptr_type lhsSca rhsSca allow_lhs_ptr with
      | .error e => (.error e, tr)
      | .ok _ =>
        match check_ptr_type rhsSca lhsSca allow_rhs_ptr with
        | .error e => (.error e, tr)
        | .ok _ =>
          if arithmetic_check ∧ ¬ lhsSca.isPointerTy ∧ ¬ rhsSca.isPointerTy then
            match computation_type lhsSca rhsSca div_or_mod with
            | .error e => (.error e, tr)
            | .ok retSca =>
              match castF fuel lhs retSca tr with
              | (.error e, tr) => (.error e, tr)
              | (.ok lhs, tr) =>
                match castF fuel rhs retSca tr with
                | (.error e, tr) => (.error e, tr)
                | (.ok rhs, tr) => (.ok (lhs, rhs), tr)
          else (.ok (lhs, rhs), tr)

/-- dispatch::not_equal (dispatch.cc lines 1285-1296), fuel-indexed. -/
def not_equalF : Nat → Value → Value → List Instr → Except Err Value × List Instr
  | 0, _, _, tr => (.error fuelErr, tr)
  | fuel + 1, input, other, tr =>
    match binary_op_type_checkingF fuel input other false false true .no tr with
    | (.error e, tr) => (.error e, tr)
    | (.ok (input, other), tr) =>
      let retTy := input.ty
      let scalarTy := input.ty.scalarTy
      if scalarTy.isFloatingPointTy then
        let (r, tr) := emit (.cmp .fUNE input.irVal other.irVal) tr
        (.ok ⟨r, input.irTy.withScalar (.int 1), retTy⟩, tr)
      else if scalarTy.isIntegerTy then
        let (r, tr) := emit (.cmp .iNE input.irVal other.irVal) tr
        (.ok ⟨r, input.irTy.withScalar (.int 1), retTy⟩, tr)
      else
        (.error (unreachableErr "equal"), tr)

end

/-- Fuel fixed by the wrappers; the cast / not_equal recursion is at most
two levels deep, so 8 is never exhausted. -/
def dispatchFuel : Nat := 8

/-- dispatch::cast. -/
def cast (input : Value) (dstTy : AstType) (tr : List Instr) :
    Except Err Value × List Instr :=
  castF dispatchFuel input dstTy tr

/-- binary_op_type_checking with the default-argument spellings of the
source call sites. -/
def binary_op_type_checking (lhs rhs : Value)
    (allow_lhs_ptr allow_rhs_ptr arithmetic_check : Bool) (div_or_mod : DivOrMod)
    (tr : List Instr) : Except Err (Value × Value) × List Instr :=
  binary_op_type_checkingF dispatchFuel lhs rhs allow_lhs_ptr allow_rhs_ptr
    arithmetic_check div_or_mod tr

/-- dispatch::not_equal.  The wrapper uses one extra unit of fuel so that
the binary_op_type_checking it performs is the same fueled computation as
the one in the other five comparison wrappers. -/
def not_equal (input other : Value) (tr : List Instr) :
    Except Err Value × List Instr :=
  not_equalF (dispatchFuel + 1) input other tr

/-- dispatch::bitcast (dispatch.cc lines 1389-1408). -/
def bitcast (input : Value) (dstTy0 : AstType) (tr : List Instr) :
    Except Err Value × List Instr :=
  let srcTy := input.ty
  let dstTy :=
    if srcTy.isBlock then
      ⟨.block dstTy0.irTy.scalarKind srcTy.irTy.blockShapes, srcTy.sn⟩
    else dstTy0
  if srcTy = dstTy then (.ok input, tr)
  else
    let srcSca := srcTy.scalarTy
    let dstSca := dstTy.scalarTy
    if srcSca.isPointerTy ∨ dstSca.isPointerTy then cast input dstTy tr
    else
      let srcBits := srcSca.irTy.scalarKind.primSizeBits
      let dstBits := dstSca.irTy.scalarKind.primSizeBits
      if srcBits ≠ dstBits then
        (.error ⟨.runtime, "Cannot bitcast data-type of size " ++ toString srcBits ++
          "to data-type of size " ++ toString dstBits⟩, tr)
      else
        let (r, tr) := emit (.castI .bitCast input.irVal) tr
        (.ok ⟨r, dstTy.irTy, dstTy⟩, tr)

/-! ## Binary operators -/

/-- dispatch::add (dispatch.cc lines 988-1012).  As in the source, ret_ty
and the two scalar types are captured before the operand swap that puts a
right-hand pointer on the left. -/
def add (input0 other0 : Value) (tr : List Instr) : Except Err Value × List Instr :=
  match binary_op_type_checking input0 other0 true true true .no tr with
  | (.error e, tr) => (.error e, tr)
  | (.ok (input, other), tr) =>
    let ret_ty := input.ty
    let input_scalar_ty := input.ty.scalarTy
    let other_scalar_ty := other.ty.scalarTy
    let (input, other) :=
      if other_scalar_ty.isPointerTy ∧ ¬ input_scalar_ty.isPointerTy then
        (other, input)
      else (input, other)
    if input_scalar_ty.isPointerTy then
      let (r, tr) := emit (.gep input.irVal other.irVal) tr
      (.ok ⟨r, input.irTy, ret_ty⟩, tr)
    else if input_scalar_ty.isFloatingPointTy then
      let (r, tr) := emit (.bin .fadd input.irVal other.irVal) tr
      (.ok ⟨r, input.irTy, ret_ty⟩, tr)
    else if input_scalar_ty.isIntegerTy then
      let (r, tr) := emit (.bin .add input.irVal other.irVal) tr
      (.ok ⟨r, input.irTy, ret_ty⟩, tr)
    else (.error (unreachableErr "add"), tr)

/-- dispatch::truediv (dispatch.cc lines 1046-1072). -/
def truediv (input0 other0 : Value) (tr : List Instr) : Except Err Value × List Instr :=
  match binary_op_type_checking input0 other0 false false true .yes tr with
  | (.error e, tr) => (.error e, tr)
  | (.ok (input, other), tr) =>
    let isc := input.ty.scalarTy
    let osc := other.ty.scalarTy
    let step : Except Err (Value × Value) × List Instr :=
      -- float / int
      if isc.isFloatingPointTy ∧ osc.isIntegerTy then
        match cast other isc tr with
        | (.error e, tr) => (.error e, tr)
        | (.ok other, tr) => (.ok (input, other), tr)
      -- int / float
      else if isc.isIntegerTy ∧ osc.isFloatingPointTy then
        match cast input osc tr with
        | (.error e, tr) => (.error e, tr)
        | (.ok input, tr) => (.ok (input, other), tr)
      -- int / int (cast to float32)
      else if isc.isIntegerTy ∧ osc.isIntegerTy then
        match cast input fp32T tr with
        | (.error e, tr) => (.error e, tr)
        | (.ok input, tr) =>
          match cast other fp32T tr with
          | (.error e, tr) => (.error e, tr)
          | (.ok other, tr) => (.ok (input, other), tr)
      -- float / float (cast to highest exponent type)
      else if isc.isFloatingPointTy ∧ osc.isFloatingPointTy then
        if isc.mantissa > osc.mantissa then
          match cast other isc tr with
          | (.error e, tr) => (.error e, tr)
          | (.ok other, tr) => (.ok (input, other), tr)
        else
          match cast input osc tr with
          | (.error e, tr) => (.error e, tr)
          | (.ok input, tr) => (.ok (input, other), tr)
      else (.error (unreachableErr "div"), tr)
    match step with
    | (.error e, tr) => (.error e, tr)
    | (.ok (input, other), tr) =>
      let (r, tr) := emit (.bin .fdiv input.irVal other.irVal) tr
      (.ok ⟨r, input.irTy, input.ty⟩, tr)

/-- dispatch::floordiv (dispatch.cc lines 1074-1089). -/
def floordiv (input0 other0 : Value) (tr : List Instr) : Except Err Value × List Instr :=
  match binary_op_type_checking input0 other0 false false true .yes tr with
  | (.error e, tr) => (.error e, tr)
  | (.ok (input, other), tr) =>
    let isc := input.ty.scalarTy
    let osc := other.ty.scalarTy
    if isc.isIntegerTy ∧ osc.isIntegerTy then
      match integer_promote isc osc with
      | .error e => (.error e, tr)
      | .ok ret_ty =>
        match cast input ret_ty tr with
        | (.error e, tr) => (.error e, tr)
        | (.ok input, tr) =>
          match cast other ret_ty tr with
          | (.error e, tr) => (.error e, tr)
          | (.ok other, tr) =>
            if ret_ty.isSigned then
              let (r, tr) := emit (.bin .sdiv input.irVal other.irVal) tr
              (.ok ⟨r, input.irTy, ret_ty⟩, tr)
            else
              let (r, tr) := emit (.bin .udiv input.irVal other.irVal) tr
              (.ok ⟨r, input.irTy, ret_ty⟩, tr)
    else (.error (unreachableErr "floordiv"), tr)

/-- The semantic_error message of dispatch::mod for mixed signedness
(dispatch.cc line 1114). -/
def modSignednessMsg (a b : AstType) : String :=
  "Cannot mod " ++ a.reprStr ++ " by " ++ b.reprStr ++
  " because they have different signedness; this is unlikely to result in a useful answer. Cast them to the same signedness."

/-- dispatch::mod (dispatch.cc lines 1103-1123). -/
def mod (input0 other0 : Value) (tr : List Instr) : Except Err Value × List Instr :=
  match binary_op_type_checking input0 other0 false false true .yes tr with
  | (.error e, tr) => (.error e, tr)
  | (.ok (input, other), tr) =>
    let ret_ty := input.ty
    let scalar_ty := input.ty.scalarTy
    let other_scalar_ty := other.ty.scalarTy
    if scalar_ty.isFloatingPointTy then
      let (r, tr) := emit (.bin .frem input.irVal other.irVal) tr
      (.ok ⟨r, input.irTy, ret_ty⟩, tr)
    else if scalar_ty.isIntegerTy then
      if scalar_ty.sn ≠ other_scalar_ty.sn then
        (.error ⟨.semantic, modSignednessMsg scalar_ty other_scalar_ty⟩, tr)
      else if scalar_ty.isSigned then
        let (r, tr) := emit (.bin .srem input.irVal other.irVal) tr
        (.ok ⟨r, input.irTy, ret_ty⟩, tr)
      else
        let (r, tr) := emit (.bin .urem input.irVal other.irVal) tr
        (.ok ⟨r, input.irTy, ret_ty⟩, tr)
    else (.error (unreachableErr "mod"), tr)

/-! ## Comparison operators (dispatch.cc lines 1202-1296)

Each comparison runs binary_op_type_checking, captures ret_ty as the
(broadcast and promoted) type of the left operand, and attaches that
frontend type to the emitted one-bit comparison instruction. -/

/-- Shared body of the ordered comparisons: emit the float predicate for
float scalars, the signed or unsigned integer predicate for integers. -/
def cmpBody (name : String) (fp sp up : CmpPred) (input other : Value)
    (tr : List Instr) : Except Err Value × List Instr :=
  let ret_ty := input.ty
  let scalar_ty := input.ty.scalarTy
  if scalar_ty.isFloatingPointTy then
    let (r, tr) := emit (.cmp fp input.irVal other.irVal) tr
    (.ok ⟨r, input.irTy.withScalar (.int 1), ret_ty⟩, tr)
  else if scalar_ty.isIntegerTy then
    if scalar_ty.isSigned then
      let (r, tr) := emit (.cmp sp input.irVal other.irVal) tr
      (.ok ⟨r, input.irTy.withScalar (.int 1), ret_ty⟩, tr)
    else
      let (r, tr) := emit (.cmp up input.irVal other.irVal) tr
      (.ok ⟨r, input.irTy.withScalar (.int 1), ret_ty⟩, tr)
  else (.error (unreachableErr name), tr)

/-- dispatch::greater_than (dispatch.cc lines 1202-1218). -/
def greater_than (input0 other0 : Value) (tr : List Instr) :
    Except Err Value × List Instr :=
  match binary_op_type_checking input0 other0 false false true .no tr with
  | (.error e, tr) => (.error e, tr)
  | (.ok (input, other), tr) => cmpBody "greater_than" .fOGT .iSGT .iUGT input other tr

/-- dispatch::greater_equal (dispatch.cc lines 1220-1236). -/
def greater_equal (input0 other0 : Value) (tr : List Instr) :
    Except Err Value × List Instr :=
  match binary_op_type_checking input0 other0 false false true .no tr with
  | (.error e, tr) => (.error e, tr)
  | (.ok (input, other), tr) => cmpBody "greater_equal" .fOGE .iSGE .iUGE input other tr

/-- dispatch::less_than (dispatch.cc lines 1238-1253). -/
def less_than (input0 other0 : Value) (tr : List Instr) :
    Except Err Value × List Instr :=
  match binary_op_type_checking input0 other0 false false true .no tr with
  | (.error e, tr) => (.error e, tr)
  | (.ok (input, other), tr) => cmpBody "less_than" .fOLT .iSLT .iULT input other tr

/-- dispatch::less_equal (dispatch.cc lines 1255-1270). -/
def less_equal (input0 other0 : Value) (tr : List Instr) :
    Except Err Value × List Instr :=
  match binary_op_type_checking input0 other0 false false true .no tr with
  | (.error e, tr) => (.error e, tr)
  | (.ok (input, other), tr) => cmpBody "less_equal" .fOLE .iSLE .iULE input other tr

/-- dispatch::equal (dispatch.cc lines 1272-1283): no signedness split. -/
def equal (input0 other0 : Value) (tr : List Instr) :
    Except Err Value × List Instr :=
  match binary_op_type_checking input0 other0 false false true .no tr with
  | (.error e, tr) => (.error e, tr)
  | (.ok (input, other), tr) =>
    let ret_ty := input.ty
    let scalar_ty := input.ty.scalarTy
    if scalar_ty.isFloatingPointTy then
      let (r, tr) := emit (.cmp .fOEQ input.irVal other.irVal) tr
      (.ok ⟨r, input.irTy.withScalar (.int 1), ret_ty⟩, tr)
    else if scalar_ty.isIntegerTy then
      let (r, tr) := emit (.cmp .iEQ input.irVal other.irVal) tr
      (.ok ⟨r, input.irTy.withScalar (.int 1), ret_ty⟩, tr)
    else (.error (unreachableErr "equal"), tr)

/-- The six comparison operations, indexed for uniform statements. -/
inductive CmpKind where
  | eq | ne | lt | le | gt | ge
deriving DecidableEq, Repr

/-- Dispatch a comparison by kind. -/
def compareK : CmpKind → Value → Value → List Instr → Except Err Value × List Instr
  | .eq => equal
  | .ne => not_equal
  | .lt => less_than
  | .le => less_equal
  | .gt => greater_than
  | .ge => greater_equal

/-! ## Memory operators -/

def int8T : AstType := ⟨.scalar (.int 8), .signed⟩

/-- The runtime error thrown by dispatch::load when `other` is supplied
without `mask` (dispatch.cc line 1521).  Note this is a plain
std::runtime_error in the source, not a semantic_error. -/
def otherWithoutMaskErr : Err :=
  ⟨.runtime, "`other` cannot be provided without `mask`"⟩

/-- dispatch::load (dispatch.cc lines 1487-1531). -/
def load (ptr0 : Value) (mask0 other0 : Option Value) (cache_modifier : String)
    (is_volatile : Bool) (tr : List Instr) : Except Err Value × List Instr :=
  if ¬ ptr0.ty.scalarTy.isPointerTy then
    (.error ⟨.semantic, "Pointer argument of load instruction is " ++ ptr0.ty.reprStr⟩, tr)
  else
    -- block pointer: broadcast mask and other to its shape, cast other to
    -- the pointee type
    let blockStep : Except Err (Option Value × Option Value) × List Instr :=
      if ptr0.ty.isBlock then
        let maskStep : Except Err (Option Value) × List Instr :=
          match mask0 with
          | none => (.ok none, tr)
          | some m =>
            match broadcast1 m ptr0.ty.irTy.blockShapes tr with
            | (.error e, tr) => (.error e, tr)
            | (.ok m, tr) => (.ok (some m), tr)
        match maskStep with
        | (.error e, tr) => (.error e, tr)
        | (.ok mask, tr) =>
          match other0 with
          | none => (.ok (mask, none), tr)
          | some o =>
            match broadcast1 o ptr0.ty.irTy.blockShapes tr with
            | (.error e, tr) => (.error e, tr)
            | (.ok o, tr) =>
              match cast o ptr0.ty.scalarTy.pointeeTy tr with
              | (.error e, tr) => (.error e, tr)
              | (.ok o, tr) => (.ok (mask, some o), tr)
      else (.ok (mask0, other0), tr)
    match blockStep with
    | (.error e, tr) => (.error e, tr)
    | (.ok (mask, other), tr) =>
      -- treat bool* as int8*
      let boolStep : Except Err (Value × AstType) × List Instr :=
        if ptr0.ty.scalarTy.pointeeTy = int1T then
          let newPtrTy : AstType :=
            ⟨.scalar (.ptr (.int 8) ptr0.ty.scalarTy.irTy.scalarKind.addrSpaceOf), .signed⟩
          match cast ptr0 newPtrTy tr with
          | (.error e, tr) => (.error e, tr)
          | (.ok p, tr) => (.ok (p, int8T), tr)
        else (.ok (ptr0, ptr0.ty.scalarTy.pointeeTy), tr)
      match boolStep with
      | (.error e, tr) => (.error e, tr)
      | (.ok (ptr, elt_ty), tr) =>
        -- cache modifier
        let cacheStep : Except Err Cache :=
          if cache_modifier = "" then .ok .NONE
          else if cache_modifier = ".ca" then .ok .CA
          else if cache_modifier = ".cg" then .ok .CG
          else .error ⟨.runtime, "Cache modifier " ++ cache_modifier ++ " not supported"⟩
        match cacheStep with
        | .error e => (.error e, tr)
        | .ok cache =>
          if mask.isNone ∧ other.isNone then
            let (r, tr) := emit (.loadI ptr.irVal cache is_volatile) tr
            (.ok ⟨r, ptr.irTy.withScalar ptr.irTy.scalarKind.pointee, elt_ty⟩, tr)
          else
            match mask with
            | none => (.error otherWithoutMaskErr, tr)
            | some mask =>
              let (other, tr) :=
                match other with
                | some o => (o, tr)
                | none =>
                  let u : Value := ⟨.undef elt_ty.irTy, elt_ty.irTy, ⟨elt_ty.irTy, .signed⟩⟩
                  if ptr.ty.isBlock then
                    let sh := ptr.ty.irTy.blockShapes
                    let (o, tr) := emit (.splat u.irVal sh) tr
                    (⟨o, .block elt_ty.irTy.scalarKind sh,
                      ⟨.block elt_ty.irTy.scalarKind sh, .signed⟩⟩, tr)
                  else (u, tr)
              let (r, tr) :=
                emit (.maskedLoad ptr.irVal mask.irVal other.irVal cache is_volatile) tr
              (.ok ⟨r, ptr.irTy.withScalar ptr.irTy.scalarKind.pointee, elt_ty⟩, tr)

/-! ## Atomic read-modify-write operations -/

/-- atom_red_typechecking (dispatch.cc lines 1564-1582). -/
def atom_red_typechecking (ptr0 val0 : Value) (mask0 : Option Value)
    (tr : List Instr) : Except Err (Value × Value × Value) × List Instr :=
  if ¬ ptr0.ty.scalarTy.isPointerTy then
    (.error ⟨.semantic, "Pointer argument of store instruction is " ++ ptr0.ty.reprStr⟩, tr)
  else
    let blockStep : Except Err (Option Value × Value) × List Instr :=
      if ptr0.ty.isBlock then
        let maskStep : Except Err (Option Value) × List Instr :=
          match mask0 with
          | none => (.ok none, tr)
          | some m =>
            match broadcast1 m ptr0.ty.irTy.blockShapes tr with
            | (.error e, tr) => (.error e, tr)
            | (.ok m, tr) => (.ok (some m), tr)
        match maskStep with
        | (.error e, tr) => (.error e, tr)
        | (.ok mask, tr) =>
          match broadcast1 val0 ptr0.ty.irTy.blockShapes tr with
          | (.error e, tr) => (.error e, tr)
          | (.ok v, tr) => (.ok (mask, v), tr)
      else (.ok (mask0, val0), tr)
    match blockStep with
    | (.error e, tr) => (.error e, tr)
    | (.ok (mask, val), tr) =>
      match cast val ptr0.ty.scalarTy.pointeeTy tr with
      | (.error e, tr) => (.error e, tr)
      | (.ok val, tr) =>
        match mask with
        | some mask => (.ok (ptr0, val, mask), tr)
        | none =>
          let m : Value := ⟨.constInt (.scalar (.int 1)) 1, .scalar (.int 1), int1T⟩
          if ptr0.ty.isBlock then
            let sh := ptr0.ty.irTy.blockShapes
            let (mi, tr) := emit (.splat m.irVal sh) tr
            (.ok (ptr0, val, ⟨mi, .block (.int 1) sh, val.ty⟩), tr)
          else (.ok (ptr0, val, m), tr)

/-- The int32 frontend pointer type built in the float path of
atomic_max / atomic_min: pointer_type::get(int32, 1). -/
def int32PtrT : AstType := ⟨.scalar (.ptr (.int 32) 1), .signed⟩

/-- dispatch::atomic_max (dispatch.cc lines 1584-1605).  The integer case
emits one signed Max or unsigned UMax rmw.  The float case follows the
source statement by statement; the dispatch helpers it invokes on
ir::values (greater_equal, less_than, and_, where) are embedded at the
ir::value level for scalar operands, where each reduces to exactly the
instruction it emits: an ordered float compare producing an i1, an i1
bitwise and, and a select on the i1 condition. -/
def atomic_max (ptr0 val0 : Value) (mask0 : Option Value) (tr : List Instr) :
    Except Err Value × List Instr :=
  match atom_red_typechecking ptr0 val0 mask0 tr with
  | (.error e, tr) => (.error e, tr)
  | (.ok (ptr, val, mask), tr) =>
    let sca_ty := val.ty.scalarTy
    if sca_ty.isIntegerTy then
      if sca_ty.isSigned then
        let (r, tr) := emit (.atomicRmw .Max ptr.irVal val.irVal mask.irVal) tr
        (.ok ⟨r, val.irTy, val.ty⟩, tr)
      else
        let (r, tr) := emit (.atomicRmw .UMax ptr.irVal val.irVal mask.irVal) tr
        (.ok ⟨r, val.irTy, val.ty⟩, tr)
    else
      match bitcast val int32T tr with
      | (.error e, tr) => (.error e, tr)
      | (.ok i_val, tr) =>
        match bitcast ptr int32PtrT tr with
        | (.error e, tr) => (.error e, tr)
        | (.ok i_ptr, tr) =>
          let zero : IRVal := .constFloat sca_ty.irTy 0
          let (pos, tr) := emit (.cmp .fOGE val.irVal zero) tr
          let (neg, tr) := emit (.cmp .fOLT val.irVal zero) tr
          let (g1, tr) := emit (.bin .and mask.irVal pos) tr
          let (pos_ret, tr) := emit (.atomicRmw .Max i_ptr.irVal i_val.irVal g1) tr
          let (g2, tr) := emit (.bin .and mask.irVal neg) tr
          let (neg_ret, tr) := emit (.atomicRmw .UMin i_ptr.irVal i_val.irVal g2) tr
          let (r, tr) := emit (.select pos pos_ret neg_ret) tr
          (.ok ⟨r, i_val.irTy, ⟨i_val.irTy, .signed⟩⟩, tr)

/-- dispatch::atomic_min (dispatch.cc lines 1607-1628): as atomic_max with
Min for the integer/positive lanes and UMax for the negative lanes. -/
def atomic_min (ptr0 val0 : Value) (mask0 : Option Value) (tr : List Instr) :
    Except Err Value × List Instr :=
  match atom_red_typechecking ptr0 val0 mask0 tr with
  | (.error e, tr) => (.error e, tr)
  | (.ok (ptr, val, mask), tr) =>
    let sca_ty := val.ty.scalarTy
    if sca_ty.isIntegerTy then
      if sca_ty.isSigned then
        let (r, tr) := emit (.atomicRmw .Min ptr.irVal val.irVal mask.irVal) tr
        (.ok ⟨r, val.irTy, val.ty⟩, tr)
      else
        let (r, tr) := emit (.atomicRmw .UMin ptr.irVal val.irVal mask.irVal) tr
        (.ok ⟨r, val.irTy, val.ty⟩, tr)
    else
      match bitcast val int32T tr with
      | (.error e, tr) => (.error e, tr)
      | (.ok i_val, tr) =>
        match bitcast ptr int32PtrT tr with
        | (.error e, tr) => (.error e, tr)
        | (.ok i_ptr, tr) =>
          let zero : IRVal := .constFloat sca_ty.irTy 0
          let (pos, tr) := emit (.cmp .fOGE val.irVal zero) tr
          let (neg, tr) := emit (.cmp .fOLT val.irVal zero) tr
          let (g1, tr) := emit (.bin .and mask.irVal pos) tr
          let (pos_ret, tr) := emit (.atomicRmw .Min i_ptr.irVal i_val.irVal g1) tr
          let (g2, tr) := emit (.bin .and mask.irVal neg) tr
          let (neg_ret, tr) := emit (.atomicRmw .UMax i_ptr.irVal i_val.irVal g2) tr
          let (r, tr) := emit (.select pos pos_ret neg_ret) tr
          (.ok ⟨r, i_val.irTy, ⟨i_val.irTy, .signed⟩⟩, tr)

/-! ## The function inliner (src/lib/codegen/transform/inline.cc)

The IR is modelled positionally: a module is a list of functions, a
function a list of named basic blocks, a block a list of instructions.
Values are Nat identities (instruction results and formal arguments);
blocks are referenced by name.  Cloned instructions keep the operand
identities of the original — exactly as in the source, where only uses of
the callee blocks and of the formal arguments are rewritten. -/

namespace Inline

/-- IR instructions as far as the inliner inspects them. -/
inductive Inst where
  | op (id : Nat) (uses : List Nat)
  | call (id : Nat) (callee : String) (args : List Nat)
  | ret (v : Option Nat)
  | br (target : String)
  | phi (id : Nat) (incomings : List (Nat × String))
deriving DecidableEq, Repr

def Inst.isPhi : Inst → Bool
  | .phi _ _ => true
  | _ => false

def Inst.isRet : Inst → Bool
  | .ret _ => true
  | _ => false

/-- replace_uses_of_with for a value identity. -/
def Inst.substVal (a b : Nat) : Inst → Inst
  | .op i us => .op i (us.map fun u => if u = a then b else u)
  | .call i c as => .call i c (as.map fun u => if u = a then b else u)
  | .ret v => .ret (v.map fun u => if u = a then b else u)
  | .br t => .br t
  | .phi i inc => .phi i (inc.map fun p => (if p.1 = a then b else p.1, p.2))

/-- replace_uses_of_with for a basic-block reference. -/
def Inst.substBlock (a b : String) : Inst → Inst
  | .br t => .br (if t = a then b else t)
  | .phi i inc => .phi i (inc.map fun p => (p.1, if p.2 = a then b else p.2))
  | i => i

structure BasicBlock where
  name : String
  insts : List Inst
deriving DecidableEq, Repr

structure Func where
  name : String
  params : List Nat
  blocks : List BasicBlock
deriving DecidableEq, Repr

structure Module where
  funcs : List Func
deriving DecidableEq, Repr

/-- The name given to the fresh block cloned from a non-entry callee
block: callee name, underscore, block name (inline.cc line 23). -/
def newBlockName (fnName blockName : String) : String := fnName ++ "_" ++ blockName

/-- The target block, in the caller, for the clone of callee block i:
block 0 is cloned into the split-off entry block (named after the callee),
later blocks into the freshly created blocks. -/
def tgtName (F : Func) (i : Nat) : String :=
  if i = 0 then F.name else newBlockName F.name ((F.blocks.getD i ⟨"", []⟩).name)

/-- Apply all block substitutions old-callee-block → new-block
(inline.cc lines 57-58). -/
def substAllBlocks (F : Func) (inst : Inst) : Inst :=
  (List.range F.blocks.length).foldl
    (fun inst k => inst.substBlock ((F.blocks.getD k ⟨"", []⟩).name) (tgtName F k)) inst

/-- Apply all argument substitutions formal → actual (inline.cc lines
59-60). -/
def substAllArgs (srcArgs tgtArgs : List Nat) (inst : Inst) : Inst :=
  (List.range srcArgs.length).foldl
    (fun inst k => inst.substVal (srcArgs.getD k 0) (tgtArgs.getD k 0)) inst

/-- Clone one instruction into the block named newName (inline.cc lines
43-61): a return becomes a branch to the exit block, recording a phi
incoming when it returned a value; every cloned instruction then has
callee-block and formal-argument uses rewritten. -/
def processInst (F : Func) (tgtArgs : List Nat) (exitName newName : String)
    (i : Inst) : Inst × List (Nat × String) :=
  match i with
  | .ret v =>
    (substAllArgs F.params tgtArgs (substAllBlocks F (.br exitName)),
     match v with
     | some rv => [(rv, newName)]
     | none => [])
  | i =>
    (substAllArgs F.params tgtArgs (substAllBlocks F i), [])

/-- Clone a whole callee block, collecting its phi incomings in order. -/
def processBlock (F : Func) (tgtArgs : List Nat) (exitName newName : String)
    (insts : List Inst) : List Inst × List (Nat × String) :=
  match insts with
  | [] => ([], [])
  | i :: rest =>
    let (i, inc) := processInst F tgtArgs exitName newName i
    let (rest, incs) := processBlock F tgtArgs exitName newName rest
    (i :: rest, inc ++ incs)

/-- The phi incomings contributed by the returns of one callee block when
it is cloned into the block named newName. -/
def retIncomings (newName : String) (insts : List Inst) : List (Nat × String) :=
  insts.flatMap fun i =>
    match i with
    | .ret (some v) => [(v, newName)]
    | _ => []

/-- Insert an instruction at get_first_non_phi of a block. -/
def insertAtFirstNonPhi (i : Inst) : List Inst → List Inst
  | [] => [i]
  | x :: xs => if x.isPhi then x :: insertAtFirstNonPhi i xs else i :: x :: xs

/-- The value operands of a call instruction. -/
def callArgsOf : Inst → List Nat
  | .call _ _ args => args
  | _ => []

/-- inliner::do_inline (inline.cc lines 10-66) as a transformation of the
caller G: the block at index p holding the call site at instruction index
ci is split before the call; the prefix (renamed after the callee) receives
the clone of the callee entry block, the suffix keeps the original block
name and receives a phi collecting the cloned returns; the remaining
callee blocks are cloned into fresh blocks appended to the caller. -/
def do_inline (F G : Func) (p ci : Nat) (phiId : Nat) : Func :=
  let P := G.blocks.getD p ⟨"", []⟩
  let callsite := P.insts.getD ci (.ret none)
  let tgtArgs := callArgsOf callsite
  let entryName := F.name
  let exitName := P.name
  let pre := P.insts.take ci
  let suf := P.insts.drop ci
  let clones := (List.range F.blocks.length).map fun i =>
    processBlock F tgtArgs exitName (tgtName F i) ((F.blocks.getD i ⟨"", []⟩).insts)
  let incomings := clones.flatMap Prod.snd
  let entryInsts := pre ++ (clones.getD 0 ([], [])).1
  let exitInsts := insertAtFirstNonPhi (.phi phiId incomings) suf
  let extraBlocks := (List.range (F.blocks.length - 1)).map fun j =>
    BasicBlock.mk (tgtName F (j + 1)) (clones.getD (j + 1) ([], [])).1
  { G with blocks :=
      G.blocks.take p ++
      [⟨entryName, entryInsts⟩, ⟨exitName, exitInsts⟩] ++
      G.blocks.drop (p + 1) ++ extraBlocks }

/-- A recorded call site: caller name, block index, instruction index. -/
structure Site where
  caller : String
  blockIdx : Nat
  instIdx : Nat
deriving DecidableEq, Repr

/-- Gather all call sites of a module, keyed by callee name (inline.cc
lines 71-77). -/
def gatherSites (M : Module) : List (String × Site) :=
  M.funcs.flatMap fun f =>
    (List.range f.blocks.length).flatMap fun bi =>
      let b := f.blocks.getD bi ⟨"", []⟩
      (List.range b.insts.length).flatMap fun ii =>
        match b.insts.getD ii (.ret none) with
        | .call _ c _ => [(c, ⟨f.name, bi, ii⟩)]
        | _ => []

/-- Replace the function named n by g in the module. -/
def replaceFunc (M : Module) (n : String) (g : Func) : Module :=
  ⟨M.funcs.map fun f => if f.name = n then g else f⟩

/-- ir::module::remove_function. -/
def removeFunc (M : Module) (n : String) : Module :=
  ⟨M.funcs.filter fun f => f.name ≠ n⟩

/-- Inline one recorded site of callee c: look the callee and the caller
up and rewrite the caller. -/
def inlineSiteInModule (M : Module) (c : String) (s : Site) (phiId : Nat) : Module :=
  match M.funcs.find? (fun f => f.name = c), M.funcs.find? (fun f => f.name = s.caller) with
  | some F, some G => replaceFunc M s.caller (do_inline F G s.blockIdx s.instIdx phiId)
  | _, _ => M

/-- inliner::run (inline.cc lines 68-86): gather the call sites, then for
each callee inline every recorded site and remove the callee from the
module.  phiId supplies the identity of the phi nodes created by
do_inline; it plays no semantic role here. -/
def run (M : Module) (phiId : Nat) : Module :=
  let sites := gatherSites M
  let callees := (sites.map Prod.fst).dedup
  callees.foldl (fun M c =>
    let M := ((sites.filter (fun sc => sc.1 = c)).map Prod.snd).foldl
      (fun M s => inlineSiteInModule M c s phiId) M
    removeFunc M c) M

end Inline

/-! ## Reduction lemmas for the type algebra -/

@[simp] lemma isFloating_int (w : Nat) : IRScalar.isFloating (.int w) = false := rfl
@[simp] lemma isFloating_ptr (p : IRScalar) (a : Nat) :
    IRScalar.isFloating (.ptr p a) = false := rfl
@[simp] lemma isFloating_fp32 : IRScalar.isFloating .fp32 = true := rfl
@[simp] lemma isFloating_fp64 : IRScalar.isFloating .fp64 = true := rfl
@[simp] lemma isFloating_fp16 : IRScalar.isFloating .fp16 = true := rfl

@[simp] lemma isInteger_int (w : Nat) : IRScalar.isInteger (.int w) = true := rfl
@[simp] lemma isInteger_fp32 : IRScalar.isInteger .fp32 = false := rfl
@[simp] lemma isInteger_ptr (p : IRScalar) (a : Nat) :
    IRScalar.isInteger (.ptr p a) = false := rfl

@[simp] lemma isPointer_int (w : Nat) : IRScalar.isPointer (.int w) = false := rfl
@[simp] lemma isPointer_fp32 : IRScalar.isPointer .fp32 = false := rfl
@[simp] lemma isPointer_fp64 : IRScalar.isPointer .fp64 = false := rfl
@[simp] lemma isPointer_ptr (p : IRScalar) (a : Nat) :
    IRScalar.isPointer (.ptr p a) = true := rfl

@[simp] lemma isBool_int (w : Nat) : IRScalar.isBool (.int w) = decide (w = 1) := by
  match w with
  | 0 => rfl
  | 1 => rfl
  | n + 2 => rfl
@[simp] lemma isBool_fp32 : IRScalar.isBool .fp32 = false := rfl

@[simp] lemma intBitwidth_int (w : Nat) : IRScalar.intBitwidth (.int w) = w := rfl

@[simp] lemma pointee_ptr (p : IRScalar) (a : Nat) : IRScalar.pointee (.ptr p a) = p := rfl

@[simp] lemma scalarKind_scalar (k : IRScalar) : IRType.scalarKind (.scalar k) = k := rfl
@[simp] lemma scalarKind_block (e : IRScalar) (s : List Nat) :
    IRType.scalarKind (.block e s) = e := rfl

@[simp] lemma irIsBlock_scalar (k : IRScalar) : IRType.isBlock (.scalar k) = false := rfl
@[simp] lemma irIsBlock_block (e : IRScalar) (s : List Nat) :
    IRType.isBlock (.block e s) = true := rfl

@[simp] lemma blockShapes_block (e : IRScalar) (s : List Nat) :
    IRType.blockShapes (.block e s) = s := rfl

@[simp] lemma withScalar_scalar (k k2 : IRScalar) :
    IRType.withScalar (.scalar k) k2 = .scalar k2 := rfl
@[simp] lemma withScalar_block (e k2 : IRScalar) (s : List Nat) :
    IRType.withScalar (.block e s) k2 = .block k2 s := rfl

@[simp] lemma isFp64_scalar (k : IRScalar) :
    IRType.isFp64 (.scalar k) = decide (k = .fp64) := by cases k <;> rfl
@[simp] lemma isFp32_scalar (k : IRScalar) :
    IRType.isFp32 (.scalar k) = decide (k = .fp32) := by cases k <;> rfl
@[simp] lemma isFp16_scalar (k : IRScalar) :
    IRType.isFp16 (.scalar k) = decide (k = .fp16) := by cases k <;> rfl
@[simp] lemma irIsIntegerTy_scalar (k : IRScalar) :
    IRType.isIntegerTy (.scalar k) = k.isInteger := by cases k <;> rfl

@[simp] lemma astScalarTy_scalar (k : IRScalar) (sn : Signedness) :
    AstType.scalarTy ⟨.scalar k, sn⟩ = ⟨.scalar k, sn⟩ := rfl
@[simp] lemma astScalarTy_block (e : IRScalar) (s : List Nat) (sn : Signedness) :
    AstType.scalarTy ⟨.block e s, sn⟩ = ⟨.scalar e, sn⟩ := rfl

@[simp] lemma astIsBlock_mk (t : IRType) (sn : Signedness) :
    AstType.isBlock ⟨t, sn⟩ = t.isBlock := rfl

@[simp] lemma astIsPointerTy_scalar (k : IRScalar) (sn : Signedness) :
    AstType.isPointerTy ⟨.scalar k, sn⟩ = k.isPointer := rfl
@[simp] lemma astIsPointerTy_block (e : IRScalar) (s : List Nat) (sn : Signedness) :
    AstType.isPointerTy ⟨.block e s, sn⟩ = false := rfl

@[simp] lemma astIsFloatingPointTy_scalar (k : IRScalar) (sn : Signedness) :
    AstType.isFloatingPointTy ⟨.scalar k, sn⟩ = k.isFloating := rfl
@[simp] lemma astIsFloatingPointTy_block (e : IRScalar) (s : List Nat) (sn : Signedness) :
    AstType.isFloatingPointTy ⟨.block e s, sn⟩ = false := rfl

@[simp] lemma astIsIntegerTy_scalar (k : IRScalar) (sn : Signedness) :
    AstType.isIntegerTy ⟨.scalar k, sn⟩ = k.isInteger := rfl
@[simp] lemma astIsIntegerTy_block (e : IRScalar) (s : List Nat) (sn : Signedness) :
    AstType.isIntegerTy ⟨.block e s, sn⟩ = false := rfl

@[simp] lemma astIsBoolTy_scalar (k : IRScalar) (sn : Signedness) :
    AstType.isBoolTy ⟨.scalar k, sn⟩ = k.isBool := rfl

@[simp] lemma astIsSigned_mk (t : IRType) (sn : Signedness) :
    AstType.isSigned ⟨t, sn⟩ = decide (sn = .signed) := rfl

@[simp] lemma astIntBitwidth_mk (t : IRType) (sn : Signedness) :
    AstType.intBitwidth ⟨t, sn⟩ = t.scalarKind.intBitwidth := rfl

@[simp] lemma astMantissa_mk (t : IRType) (sn : Signedness) :
    AstType.mantissa ⟨t, sn⟩ = t.scalarKind.mantissaWidth := rfl

@[simp] lemma astPointeeTy_mk (t : IRType) (sn : Signedness) :
    AstType.pointeeTy ⟨t, sn⟩ = ⟨.scalar t.scalarKind.pointee, sn⟩ := rfl

@[simp] lemma intT_def (w : Nat) (sn : Signedness) :
    intT w sn = ⟨.scalar (.int w), sn⟩ := rfl

/-! ## Stepping lemmas for the dispatch pipeline -/

/-- Pairwise broadcast of two non-block values is the identity and emits
nothing. -/
lemma broadcastPair_scalar (lhs rhs : Value) (tr : List Instr)
    (hl : lhs.ty.isBlock = false) (hr : rhs.ty.isBlock = false) :
    broadcastPair lhs rhs tr = (.ok (lhs, rhs), tr) := by
  simp [broadcastPair, hl, hr]

/-- Casting a non-block value to its own frontend type is the identity at
any non-zero fuel. -/
lemma castF_same (fuel : Nat) (v : Value) (d : AstType) (tr : List Instr)
    (hb : v.ty.isBlock = false) (h : v.ty = d) :
    castF (fuel + 1) v d tr = (.ok v, tr) := by
  subst h
  simp [castF, hb]

/-- Casting a scalar integer value to a different scalar integer type
emits exactly one int_cast instruction. -/
lemma castF_int_cast (fuel : Nat) (v : Value) (w1 w2 : Nat) (sn1 sn2 : Signedness)
    (tr : List Instr) (hty : v.ty = intT w1 sn1) (hne : ¬ (w1 = w2 ∧ sn1 = sn2)) :
    castF (fuel + 1) v (intT w2 sn2) tr =
      (.ok ⟨.res tr.length, .scalar (.int w2), intT w2 sn2⟩,
       tr ++ [.castI (.intCast (decide (sn1 = .signed) && decide (¬ w1 = 1))) v.irVal]) := by
  have hd : intT w1 sn1 ≠ intT w2 sn2 := by
    simp only [intT_def, ne_eq, AstType.mk.injEq, IRType.scalar.injEq, IRScalar.int.injEq]
    intro ⟨h1, h2⟩
    exact hne ⟨h1, h2⟩
  have h2 : ¬ w1 = w2 ∨ ¬ sn1 = sn2 := by tauto
  simp [castF, hty, hd, emit]
  rw [if_neg hne, if_pos h2]

/-- Casting a scalar integer value to fp32 emits exactly one int-to-float
conversion: unsigned (or bool) sources use ui_to_fp, signed ones si_to_fp. -/
lemma castF_int_to_fp32 (fuel : Nat) (v : Value) (w : Nat) (sn : Signedness)
    (tr : List Instr) (hty : v.ty = intT w sn) :
    castF (fuel + 1) v fp32T tr =
      (.ok ⟨.res tr.length, .scalar .fp32, fp32T⟩,
       tr ++ [.castI (if w = 1 ∨ sn = .unsigned then .uiToFp else .siToFp) v.irVal]) := by
  have hd : intT w sn ≠ fp32T := by simp [intT, fp32T]
  by_cases hw : w = 1 <;> cases sn <;>
    simp [castF, hty, hd, emit, hw, fp32T, intT]

/-! ## Claim C1: promotion idempotence of computation_type -/

/-- C1 (counterexample): the claim quantifies over every scalar type the
dispatcher accepts, including bf16 — but computation_type(bf16, bf16, _)
does not return bf16: it takes the throw_unreachable path, because the
source only handles fp64 / fp32 / fp16 and integer operands. -/
theorem C1_counterexample :
    computation_type bf16T bf16T .no = .error (unreachableErr "computation_type") ∧
    computation_type bf16T bf16T .no ≠ .ok bf16T ∧
    computation_type fp8T fp8T .no ≠ .ok fp8T := by
  refine ⟨by decide, by decide, by decide⟩

/-- C1 (amended): for every scalar frontend type a that reaches the
promotion rules — fp16, fp32, fp64 and every integer type — the promotion
computation_type(a, a, d) returns a itself, except that fp16 under
division or modulo returns fp32.  bf16 and fp8 are excluded: on them the
function hits its unreachable path instead of returning. -/
theorem C1_promotion_idempotent (a : AstType) (d : DivOrMod)
    (h : a = fp16T ∨ a = fp32T ∨ a = fp64T ∨ ∃ w sn, a = intT w sn) :
    computation_type a a d =
      .ok (if a = fp16T ∧ d = .yes then fp32T else a) := by
  rcases h with h | h | h | ⟨w, sn, h⟩
  · subst h; cases d <;> decide
  · subst h; cases d <;> decide
  · subst h; cases d <;> decide
  · subst h
    have hne : ¬ (intT w sn = fp16T ∧ d = DivOrMod.yes) := by
      rintro ⟨h1, -⟩
      simp [intT, fp16T] at h1
    rw [if_neg hne]
    cases d <;> simp [computation_type, integer_promote, fp64T, fp32T, fp16T]

/-- C1 witness: the amended theorem applied at int32 with the
division-or-modulo flag set. -/
theorem C1_witness : computation_type int32T int32T .yes = .ok int32T := by
  have h := C1_promotion_idempotent int32T .yes
    (Or.inr (Or.inr (Or.inr ⟨32, Signedness.signed, rfl⟩)))
  rw [h]
  decide

/-! ## Claim C5: mixed-signedness integer division and modulo rejected -/

/-- C5: for integer operands of differing signedness, each of truediv,
floordiv and mod fails with the semantic_error raised by computation_type,
whose message names the signedness mismatch and tells the user to cast;
the trace is returned unchanged, so no arithmetic instruction (indeed no
instruction at all) is emitted for the operation. -/
theorem C5_mixed_signedness_rejected (lhs rhs : Value) (w1 w2 : Nat)
    (sn1 sn2 : Signedness) (tr : List Instr)
    (hl : lhs.ty = intT w1 sn1) (hr : rhs.ty = intT w2 sn2) (hsn : sn1 ≠ sn2) :
    truediv lhs rhs tr =
      (.error ⟨.semantic, divmodSignednessMsg (intT w1 sn1) (intT w2 sn2)⟩, tr) ∧
    floordiv lhs rhs tr =
      (.error ⟨.semantic, divmodSignednessMsg (intT w1 sn1) (intT w2 sn2)⟩, tr) ∧
    mod lhs rhs tr =
      (.error ⟨.semantic, divmodSignednessMsg (intT w1 sn1) (intT w2 sn2)⟩, tr) := by
  have hbl : lhs.ty.isBlock = false := by rw [hl]; rfl
  have hbr : rhs.ty.isBlock = false := by rw [hr]; rfl
  have hbp := broadcastPair_scalar lhs rhs tr hbl hbr
  have hct : computation_type ⟨.scalar (.int w1), sn1⟩ ⟨.scalar (.int w2), sn2⟩ .yes =
      .error ⟨.semantic,
        divmodSignednessMsg ⟨.scalar (.int w1), sn1⟩ ⟨.scalar (.int w2), sn2⟩⟩ := by
    simp [computation_type, hsn, fp64T, fp32T, fp16T]
  have hbotc : binary_op_type_checking lhs rhs false false true .yes tr =
      (.error ⟨.semantic, divmodSignednessMsg (intT w1 sn1) (intT w2 sn2)⟩, tr) := by
    simp [binary_op_type_checking, dispatchFuel, binary_op_type_checkingF, hbp, hl, hr,
      hct, check_ptr_type]
  refine ⟨?_, ?_, ?_⟩
  · simp [truediv, hbotc]
  · simp [floordiv, hbotc]
  · simp [mod, hbotc]

/-- C5 witness: mod, truediv and floordiv on a uint32 and an int32
operand all fail with the signedness semantic error and emit nothing. -/
theorem C5_witness :
    mod ⟨.arg 0, .scalar (.int 32), uint32T⟩ ⟨.arg 1, .scalar (.int 32), int32T⟩ [] =
      (.error ⟨.semantic, divmodSignednessMsg uint32T int32T⟩, []) := by
  have h := C5_mixed_signedness_rejected
    ⟨.arg 0, .scalar (.int 32), uint32T⟩ ⟨.arg 1, .scalar (.int 32), int32T⟩
    32 32 .unsigned .signed [] rfl rfl (by decide)
  exact h.2.2

/-! ## Claim C3: pointer-offset symmetry of add -/

/-- C3: add(ptr, off) emits the gep the claim describes, but add(off, ptr)
does not — input_scalar_ty is captured before the operand swap, so the
swapped call falls into the integer branch and emits create_add on the
pointer ir::value, returning a value whose frontend type is the offset
type int32.  The two calls produce neither the same IR nor equivalent
frontend values, contradicting both the claim and the intent evidenced by
the swap and its comment. -/
theorem C3_add_swap_divergence :
    add ⟨.arg 0, .scalar (.ptr .fp32 1), ⟨.scalar (.ptr .fp32 1), .signed⟩⟩
        ⟨.arg 1, .scalar (.int 32), int32T⟩ [] =
      (.ok ⟨.res 0, .scalar (.ptr .fp32 1), ⟨.scalar (.ptr .fp32 1), .signed⟩⟩,
       [.gep (.arg 0) (.arg 1)]) ∧
    add ⟨.arg 1, .scalar (.int 32), int32T⟩
        ⟨.arg 0, .scalar (.ptr .fp32 1), ⟨.scalar (.ptr .fp32 1), .signed⟩⟩ [] =
      (.ok ⟨.res 0, .scalar (.ptr .fp32 1), int32T⟩,
       [.bin .add (.arg 0) (.arg 1)]) := by
  constructor <;> rfl

/-! ## Claim C10: block-scalar pairwise broadcast keeps the scalar
frontend type -/

/-- C10: when exactly one operand of the pairwise broadcast is a block,
the scalar side is splatted to the block shape in the emitted IR, but the
frontend value returned for it carries the original scalar frontend type
(the emitted ir::value has the block type); the block operand is returned
unchanged.  Both orders are covered. -/
theorem C10_block_scalar_splat (lhs rhs : Value) (e k : IRScalar) (s : List Nat)
    (tr : List Instr)
    (hl : lhs.ty.irTy = .block e s) (hr : rhs.ty.irTy = .scalar k)
    (hwr : rhs.irTy = rhs.ty.irTy) :
    broadcastPair lhs rhs tr =
      (.ok (lhs, ⟨.res tr.length, .block k s, rhs.ty⟩), tr ++ [.splat rhs.irVal s]) ∧
    broadcastPair rhs lhs tr =
      (.ok (⟨.res tr.length, .block k s, rhs.ty⟩, lhs), tr ++ [.splat rhs.irVal s]) := by
  have hbl : lhs.ty.isBlock = true := by simp [AstType.isBlock, hl]
  have hbr : rhs.ty.isBlock = false := by simp [AstType.isBlock, hr]
  constructor
  · simp [broadcastPair, hbl, hbr, emit, hl, hwr, hr]
  · simp [broadcastPair, hbl, hbr, emit, hl, hwr, hr]

/-- C10 witness: an fp32 block of shape [1, 8] against a scalar fp32. -/
theorem C10_witness :
    broadcastPair ⟨.arg 3, .block .fp32 [1, 8], ⟨.block .fp32 [1, 8], .signed⟩⟩
        ⟨.arg 1, .scalar .fp32, fp32T⟩ [] =
      (.ok (⟨.arg 3, .block .fp32 [1, 8], ⟨.block .fp32 [1, 8], .signed⟩⟩,
            ⟨.res 0, .block .fp32 [1, 8], fp32T⟩),
       [.splat (.arg 1) [1, 8]]) := by
  have h := C10_block_scalar_splat
    ⟨.arg 3, .block .fp32 [1, 8], ⟨.block .fp32 [1, 8], .signed⟩⟩
    ⟨.arg 1, .scalar .fp32, fp32T⟩ .fp32 .fp32 [1, 8] [] rfl rfl rfl
  exact h.1

/-! ## Claim C7: load with mask and other combinations -/

/-- C7 (counterexample): load rejects other-without-mask, but with a plain
std::runtime_error — not the semantic_error the claim names (dispatch.cc
line 1521 uses throw std::runtime_error while semantic errors elsewhere in
load use throw semantic_error). -/
theorem C7_counterexample :
    load ⟨.arg 0, .scalar (.ptr .fp32 1), ⟨.scalar (.ptr .fp32 1), .signed⟩⟩ none
        (some ⟨.arg 1, .scalar .fp32, fp32T⟩) "" false [] =
      (.error otherWithoutMaskErr, []) ∧
    otherWithoutMaskErr.kind ≠ .semantic := by
  exact ⟨rfl, by decide⟩

/-- C7 (amended): for a load through a scalar pointer (non-bool pointee)
with a supported cache modifier: providing other without mask fails with
the runtime error (not a semantic_error) and emits nothing, in particular
no load; with neither mask nor other a plain unmasked load is emitted;
with mask but no other a masked load is emitted whose off-lane value is an
undef of the element type. -/
theorem C7_load_mask_other (ptr mask other : Value) (e : IRScalar) (a : Nat)
    (sn : Signedness) (cm : String) (c : Cache) (vol : Bool) (tr : List Instr)
    (hp : ptr.ty = ⟨.scalar (.ptr e a), sn⟩) (he : e ≠ .int 1)
    (hw : ptr.irTy = ptr.ty.irTy)
    (hcm : (cm = "" ∧ c = .NONE) ∨ (cm = ".ca" ∧ c = .CA) ∨ (cm = ".cg" ∧ c = .CG)) :
    load ptr none (some other) cm vol tr = (.error otherWithoutMaskErr, tr) ∧
    load ptr none none cm vol tr =
      (.ok ⟨.res tr.length, .scalar e, ⟨.scalar e, sn⟩⟩,
       tr ++ [.loadI ptr.irVal c vol]) ∧
    load ptr (some mask) none cm vol tr =
      (.ok ⟨.res tr.length, .scalar e, ⟨.scalar e, sn⟩⟩,
       tr ++ [.maskedLoad ptr.irVal mask.irVal (.undef (.scalar e)) c vol]) := by
  have hb : ¬ (⟨.scalar e, sn⟩ : AstType) = int1T := by
    simp only [int1T, AstType.mk.injEq, IRType.scalar.injEq]
    rintro ⟨h1, -⟩
    exact he h1
  rcases hcm with ⟨hc1, hc2⟩ | ⟨hc1, hc2⟩ | ⟨hc1, hc2⟩ <;> subst hc1 <;> subst hc2 <;>
    refine ⟨?_, ?_, ?_⟩ <;>
      simp [load, hp, hw, hb, emit]

/-- C7 witness: the amended theorem applied to a scalar fp32 pointer,
together with a closed block-pointer run showing the undef off-lane value
splatted to the block shape. -/
theorem C7_witness :
    load ⟨.arg 0, .scalar (.ptr .fp32 1), ⟨.scalar (.ptr .fp32 1), .signed⟩⟩
        (some ⟨.arg 2, .scalar (.int 1), int1T⟩) none "" false [] =
      (.ok ⟨.res 0, .scalar .fp32, fp32T⟩,
       [.maskedLoad (.arg 0) (.arg 2) (.undef (.scalar .fp32)) .NONE false]) ∧
    load ⟨.arg 0, .block (.ptr .fp32 1) [4], ⟨.block (.ptr .fp32 1) [4], .signed⟩⟩
        (some ⟨.arg 2, .block (.int 1) [4], ⟨.block (.int 1) [4], .signed⟩⟩) none "" false [] =
      (.ok ⟨.res 1, .block .fp32 [4], fp32T⟩,
       [.splat (.undef (.scalar .fp32)) [4],
        .maskedLoad (.arg 0) (.arg 2) (.res 0) .NONE false]) := by
  constructor
  · have h := C7_load_mask_other
      ⟨.arg 0, .scalar (.ptr .fp32 1), ⟨.scalar (.ptr .fp32 1), .signed⟩⟩
      ⟨.arg 2, .scalar (.int 1), int1T⟩
      ⟨.arg 2, .scalar (.int 1), int1T⟩
      .fp32 1 .signed "" .NONE false [] rfl (by decide) rfl (Or.inl ⟨rfl, rfl⟩)
    simpa [fp32T] using h.2.2
  · rfl

/-! ## Claim C4: float atomic_max / atomic_min emulation -/

/-- C4 (counterexample): the claim quantifies over every floating-point
val, but for an fp64 pointee atomic_max fails in bitcast(val, int32)
(primitive sizes 64 and 32 differ) and emits no atomic rmw at all. -/
theorem C4_counterexample :
    atomic_max ⟨.arg 0, .scalar (.ptr .fp64 1), ⟨.scalar (.ptr .fp64 1), .signed⟩⟩
        ⟨.arg 1, .scalar .fp64, fp64T⟩ (some ⟨.arg 2, .scalar (.int 1), int1T⟩) [] =
      (.error ⟨.runtime, "Cannot bitcast data-type of size 64to data-type of size 32"⟩,
       []) := by
  rfl

/-- C4 (amended): for atomic_max on a scalar fp32 pointer with an fp32
value and a mask, the float path emits exactly two atomic rmw
instructions on the bit-reinterpreted int32 pointer: a signed Max guarded
by mask AND (val >= 0) and an unsigned UMin guarded by mask AND
(val < 0), combined by a select on the positive condition; symmetrically
atomic_min uses signed Min for the positive lanes and unsigned UMax for
the negative lanes.  Floating types other than fp32 never reach the rmws:
the int32 bitcast rejects them. -/
theorem C4_float_atomic_max_min (ptr val mask : Value) (a : Nat) (snp : Signedness)
    (tr : List Instr)
    (hp : ptr.ty = ⟨.scalar (.ptr .fp32 a), snp⟩)
    (hv : val.ty = ⟨.scalar .fp32, snp⟩) :
    (atomic_max ptr val (some mask) tr =
      (.ok ⟨.res (tr.length + 8), .scalar (.int 32), int32T⟩,
       tr ++
        [.castI .bitCast val.irVal,
         .castI .bitCast ptr.irVal,
         .cmp .fOGE val.irVal (.constFloat (.scalar .fp32) 0),
         .cmp .fOLT val.irVal (.constFloat (.scalar .fp32) 0),
         .bin .and mask.irVal (.res (tr.length + 2)),
         .atomicRmw .Max (.res (tr.length + 1)) (.res tr.length) (.res (tr.length + 4)),
         .bin .and mask.irVal (.res (tr.length + 3)),
         .atomicRmw .UMin (.res (tr.length + 1)) (.res tr.length) (.res (tr.length + 6)),
         .select (.res (tr.length + 2)) (.res (tr.length + 5)) (.res (tr.length + 7))])) ∧
    (atomic_min ptr val (some mask) tr =
      (.ok ⟨.res (tr.length + 8), .scalar (.int 32), int32T⟩,
       tr ++
        [.castI .bitCast val.irVal,
         .castI .bitCast ptr.irVal,
         .cmp .fOGE val.irVal (.constFloat (.scalar .fp32) 0),
         .cmp .fOLT val.irVal (.constFloat (.scalar .fp32) 0),
         .bin .and mask.irVal (.res (tr.length + 2)),
         .atomicRmw .Min (.res (tr.length + 1)) (.res tr.length) (.res (tr.length + 4)),
         .bin .and mask.irVal (.res (tr.length + 3)),
         .atomicRmw .UMax (.res (tr.length + 1)) (.res tr.length) (.res (tr.length + 6)),
         .select (.res (tr.length + 2)) (.res (tr.length + 5)) (.res (tr.length + 7))])) ∧
    ∀ tr2 : List Instr,
      (atomic_max ptr val (some mask) tr = ((atomic_max ptr val (some mask) tr).1, tr2)) →
      ((tr2.drop tr.length).filter Instr.isRmw).length = 2 := by
  have hcast : castF (7 + 1) val ptr.ty.scalarTy.pointeeTy tr = (.ok val, tr) := by
    refine castF_same 7 val _ tr ?_ ?_
    · rw [hv]; rfl
    · rw [hv, hp]; rfl
  refine ⟨?_, ?_, ?_⟩
  · simp [atomic_max, atom_red_typechecking, hp, hv, cast, dispatchFuel, hcast,
      bitcast, int32T, int32PtrT, castF, emit, IRScalar.primSizeBits]
  · simp [atomic_min, atom_red_typechecking, hp, hv, cast, dispatchFuel, hcast,
      bitcast, int32T, int32PtrT, castF, emit, IRScalar.primSizeBits]
  · intro tr2 h2
    have hmax : atomic_max ptr val (some mask) tr =
        (.ok ⟨.res (tr.length + 8), .scalar (.int 32), int32T⟩,
         tr ++
          [.castI .bitCast val.irVal,
           .castI .bitCast ptr.irVal,
           .cmp .fOGE val.irVal (.constFloat (.scalar .fp32) 0),
           .cmp .fOLT val.irVal (.constFloat (.scalar .fp32) 0),
           .bin .and mask.irVal (.res (tr.length + 2)),
           .atomicRmw .Max (.res (tr.length + 1)) (.res tr.length) (.res (tr.length + 4)),
           .bin .and mask.irVal (.res (tr.length + 3)),
           .atomicRmw .UMin (.res (tr.length + 1)) (.res tr.length) (.res (tr.length + 6)),
           .select (.res (tr.length + 2)) (.res (tr.length + 5)) (.res (tr.length + 7))]) := by
      simp [atomic_max, atom_red_typechecking, hp, hv, cast, dispatchFuel, hcast,
        bitcast, int32T, int32PtrT, castF, emit, IRScalar.primSizeBits]
    rw [hmax] at h2
    have : tr2 = tr ++
        [.castI .bitCast val.irVal,
         .castI .bitCast ptr.irVal,
         .cmp .fOGE val.irVal (.constFloat (.scalar .fp32) 0),
         .cmp .fOLT val.irVal (.constFloat (.scalar .fp32) 0),
         .bin .and mask.irVal (.res (tr.length + 2)),
         .atomicRmw .Max (.res (tr.length + 1)) (.res tr.length) (.res (tr.length + 4)),
         .bin .and mask.irVal (.res (tr.length + 3)),
         .atomicRmw .UMin (.res (tr.length + 1)) (.res tr.length) (.res (tr.length + 6)),
         .select (.res (tr.length + 2)) (.res (tr.length + 5)) (.res (tr.length + 7))] := by
      exact congrArg Prod.snd h2.symm
    subst this
    simp [Instr.isRmw, List.drop_append]

/-- C4 witness: the amended theorem at a concrete fp32 pointer, value and
mask. -/
theorem C4_witness :
    atomic_max ⟨.arg 0, .scalar (.ptr .fp32 1), ⟨.scalar (.ptr .fp32 1), .signed⟩⟩
        ⟨.arg 1, .scalar .fp32, fp32T⟩ (some ⟨.arg 2, .scalar (.int 1), int1T⟩) [] =
      (.ok ⟨.res 8, .scalar (.int 32), int32T⟩,
       [.castI .bitCast (.arg 1),
        .castI .bitCast (.arg 0),
        .cmp .fOGE (.arg 1) (.constFloat (.scalar .fp32) 0),
        .cmp .fOLT (.arg 1) (.constFloat (.scalar .fp32) 0),
        .bin .and (.arg 2) (.res 2),
        .atomicRmw .Max (.res 1) (.res 0) (.res 4),
        .bin .and (.arg 2) (.res 3),
        .atomicRmw .UMin (.res 1) (.res 0) (.res 6),
        .select (.res 2) (.res 5) (.res 7)]) := by
  have h := C4_float_atomic_max_min
    ⟨.arg 0, .scalar (.ptr .fp32 1), ⟨.scalar (.ptr .fp32 1), .signed⟩⟩
    ⟨.arg 1, .scalar .fp32, fp32T⟩ ⟨.arg 2, .scalar (.int 1), int1T⟩
    1 .signed [] rfl rfl
  simpa using h.1

/-! ## Claim C6: integer truediv casts to fp32 -/

/-- computation_type on two integer scalars of the same signedness always
succeeds with the wider type (the right one when the widths tie). -/
lemma computation_type_int_same (w1 w2 : Nat) (sn : Signedness) (d : DivOrMod) :
    computation_type ⟨.scalar (.int w1), sn⟩ ⟨.scalar (.int w2), sn⟩ d =
      .ok (if w1 > w2 then ⟨.scalar (.int w1), sn⟩ else ⟨.scalar (.int w2), sn⟩) := by
  simp [computation_type, integer_promote, fp64T, fp32T, fp16T]

/-- C6: truediv on two integer operands of the same signedness casts both
(after the usual integer promotion) to fp32 — by ui_to_fp for unsigned or
bool sources, si_to_fp otherwise — emits an fdiv on the two cast results,
and returns a value of frontend type fp32; the closed second conjunct
shows the block case, where the result type is fp32 lifted to the operand
shape. -/
theorem C6_truediv_int_int (lhs rhs : Value) (w1 w2 : Nat) (sn : Signedness)
    (tr : List Instr) (hl : lhs.ty = intT w1 sn) (hr : rhs.ty = intT w2 sn) :
    (∃ (tr1 : List Instr) (u v : IRVal),
      truediv lhs rhs tr =
        (.ok ⟨.res (tr1.length + 2), .scalar .fp32, fp32T⟩,
         tr1 ++
          [.castI (if max w1 w2 = 1 ∨ sn = .unsigned then .uiToFp else .siToFp) u,
           .castI (if max w1 w2 = 1 ∨ sn = .unsigned then .uiToFp else .siToFp) v,
           .bin .fdiv (.res tr1.length) (.res (tr1.length + 1))])) ∧
    truediv ⟨.arg 0, .block (.int 32) [4], ⟨.block (.int 32) [4], .signed⟩⟩
        ⟨.arg 1, .block (.int 32) [4], ⟨.block (.int 32) [4], .signed⟩⟩ [] =
      (.ok ⟨.res 2, .block .fp32 [4], ⟨.block .fp32 [4], .signed⟩⟩,
       [.castI .siToFp (.arg 0), .castI .siToFp (.arg 1),
        .bin .fdiv (.res 0) (.res 1)]) := by
  refine ⟨?_, by rfl⟩
  have hbl : lhs.ty.isBlock = false := by rw [hl]; rfl
  have hbr : rhs.ty.isBlock = false := by rw [hr]; rfl
  have hbp := broadcastPair_scalar lhs rhs tr hbl hbr
  have hct := computation_type_int_same w1 w2 sn .yes
  rcases Nat.lt_trichotomy w1 w2 with hw | hw | hw
  · -- w1 < w2: the left operand is promoted by an int_cast first
    have hgt : ¬ w1 > w2 := by omega
    have hc1 : castF (6 + 1) lhs (⟨.scalar (.int w2), sn⟩ : AstType) tr =
        (.ok ⟨.res tr.length, .scalar (.int w2), intT w2 sn⟩,
         tr ++ [.castI (.intCast (decide (sn = .signed) && !decide (w1 = 1))) lhs.irVal]) := by
      have h := castF_int_cast 6 lhs w1 w2 sn sn tr hl (by omega)
      simpa [decide_not] using h
    have hc2 : castF (6 + 1) rhs (⟨.scalar (.int w2), sn⟩ : AstType)
        (tr ++ [.castI (.intCast (decide (sn = .signed) && !decide (w1 = 1))) lhs.irVal]) =
        (.ok rhs,
         tr ++ [.castI (.intCast (decide (sn = .signed) && !decide (w1 = 1))) lhs.irVal]) := by
      exact castF_same 6 rhs _ _ hbr (by rw [hr]; rfl)
    have hbotc : binary_op_type_checking lhs rhs false false true .yes tr =
        (.ok (⟨.res tr.length, .scalar (.int w2), intT w2 sn⟩, rhs),
         tr ++ [.castI (.intCast (decide (sn = .signed) && !decide (w1 = 1))) lhs.irVal]) := by
      simp [binary_op_type_checking, dispatchFuel, binary_op_type_checkingF, hbp, hl, hr,
        check_ptr_type, hct, hgt, hc1, hc2]
    refine ⟨tr ++ [.castI (.intCast (decide (sn = .signed) && !decide (w1 = 1))) lhs.irVal],
      .res tr.length, rhs.irVal, ?_⟩
    have hf1 := castF_int_to_fp32 7
      (⟨.res tr.length, .scalar (.int w2), ⟨.scalar (.int w2), sn⟩⟩ : Value) w2 sn
      (tr ++ [.castI (.intCast (decide (sn = .signed) && !decide (w1 = 1))) lhs.irVal]) rfl
    have hmax : max w1 w2 = w2 := Nat.max_eq_right (Nat.le_of_lt hw)
    have hf2 := castF_int_to_fp32 7 rhs w2 sn
      (tr ++ [.castI (.intCast (decide (sn = .signed) && !decide (w1 = 1))) lhs.irVal,
              .castI (if w2 = 1 ∨ sn = .unsigned then .uiToFp else .siToFp) (.res tr.length)]) hr
    simp [truediv, hbotc, hmax, cast, dispatchFuel, hf1, hf2, hr, emit, intT]
  · -- equal widths: both promotion casts are the identity
    subst hw
    have hgt : ¬ w1 > w1 := by omega
    have hc1 : castF (6 + 1) lhs (⟨.scalar (.int w1), sn⟩ : AstType) tr = (.ok lhs, tr) :=
      castF_same 6 lhs _ tr hbl (by rw [hl]; rfl)
    have hc2 : castF (6 + 1) rhs (⟨.scalar (.int w1), sn⟩ : AstType) tr = (.ok rhs, tr) :=
      castF_same 6 rhs _ tr hbr (by rw [hr]; rfl)
    have hbotc : binary_op_type_checking lhs rhs false false true .yes tr =
        (.ok (lhs, rhs), tr) := by
      simp [binary_op_type_checking, dispatchFuel, binary_op_type_checkingF, hbp, hl, hr,
        check_ptr_type, hct, hgt, hc1, hc2]
    refine ⟨tr, lhs.irVal, rhs.irVal, ?_⟩
    have hf1 := castF_int_to_fp32 7 lhs w1 sn tr hl
    have hf2 := castF_int_to_fp32 7 rhs w1 sn
      (tr ++ [.castI (if w1 = 1 ∨ sn = .unsigned then .uiToFp else .siToFp) lhs.irVal]) hr
    simp [truediv, hbotc, Nat.max_self, cast, dispatchFuel, hl, hr, hf1, hf2, emit, intT]
  · -- w1 > w2: the right operand is promoted by an int_cast first
    have hc1 : castF (6 + 1) lhs (⟨.scalar (.int w1), sn⟩ : AstType) tr = (.ok lhs, tr) :=
      castF_same 6 lhs _ tr hbl (by rw [hl]; rfl)
    have hc2 : castF (6 + 1) rhs (⟨.scalar (.int w1), sn⟩ : AstType) tr =
        (.ok ⟨.res tr.length, .scalar (.int w1), intT w1 sn⟩,
         tr ++ [.castI (.intCast (decide (sn = .signed) && !decide (w2 = 1))) rhs.irVal]) := by
      have h := castF_int_cast 6 rhs w2 w1 sn sn tr hr (by omega)
      simpa [decide_not] using h
    have hbotc : binary_op_type_checking lhs rhs false false true .yes tr =
        (.ok (lhs, ⟨.res tr.length, .scalar (.int w1), intT w1 sn⟩),
         tr ++ [.castI (.intCast (decide (sn = .signed) && !decide (w2 = 1))) rhs.irVal]) := by
      simp [binary_op_type_checking, dispatchFuel, binary_op_type_checkingF, hbp, hl, hr,
        check_ptr_type, hct, hw, hc1, hc2]
    refine ⟨tr ++ [.castI (.intCast (decide (sn = .signed) && !decide (w2 = 1))) rhs.irVal],
      lhs.irVal, .res tr.length, ?_⟩
    have hf1 := castF_int_to_fp32 7 lhs w1 sn
      (tr ++ [.castI (.intCast (decide (sn = .signed) && !decide (w2 = 1))) rhs.irVal]) hl
    have hmax : max w1 w2 = w1 := Nat.max_eq_left (Nat.le_of_lt hw)
    have hf2 := castF_int_to_fp32 7
      (⟨.res tr.length, .scalar (.int w1), ⟨.scalar (.int w1), sn⟩⟩ : Value) w1 sn
      (tr ++ [.castI (.intCast (decide (sn = .signed) && !decide (w2 = 1))) rhs.irVal,
              .castI (if w1 = 1 ∨ sn = .unsigned then .uiToFp else .siToFp) lhs.irVal]) rfl
    simp [truediv, hbotc, hmax, cast, dispatchFuel, hl, hr, hf1, hf2, emit, intT]

/-- C6 witness: truediv on two scalar int32 values. -/
theorem C6_witness :
    ∃ (tr1 : List Instr) (u v : IRVal),
      truediv ⟨.arg 0, .scalar (.int 32), int32T⟩ ⟨.arg 1, .scalar (.int 32), int32T⟩ [] =
        (.ok ⟨.res (tr1.length + 2), .scalar .fp32, fp32T⟩,
         tr1 ++
          [.castI (if max 32 32 = 1 ∨ Signedness.signed = .unsigned then .uiToFp else .siToFp) u,
           .castI (if max 32 32 = 1 ∨ Signedness.signed = .unsigned then .uiToFp else .siToFp) v,
           .bin .fdiv (.res tr1.length) (.res (tr1.length + 1))]) := by
  have h := C6_truediv_int_int ⟨.arg 0, .scalar (.int 32), int32T⟩
    ⟨.arg 1, .scalar (.int 32), int32T⟩ 32 32 .signed [] rfl rfl
  exact h.1

/-! ## Claim C9: comparisons return the promoted operand type -/

/-- A scalar type that is integer is not floating point. -/
lemma not_float_of_int (t : AstType) (h : t.isIntegerTy = true) :
    t.isFloatingPointTy = false := by
  rcases t with ⟨irTy, sn⟩
  cases irTy with
  | scalar k =>
    cases k <;>
      simp_all [AstType.isIntegerTy, AstType.isFloatingPointTy, IRScalar.isInteger,
        IRScalar.isFloating]
  | block e s => simp_all [AstType.isIntegerTy]

/-- The shared comparison body emits one compare instruction and attaches
ret_ty — the type of the type-checked left operand — to a value whose
ir::value is one-bit. -/
lemma cmpBody_spec (name : String) (fp sp up : CmpPred) (l r : Value) (tr1 : List Instr)
    (hs : l.ty.scalarTy.isFloatingPointTy = true ∨ l.ty.scalarTy.isIntegerTy = true) :
    ∃ p : CmpPred,
      cmpBody name fp sp up l r tr1 =
        (.ok ⟨.res tr1.length, l.irTy.withScalar (.int 1), l.ty⟩,
         tr1 ++ [.cmp p l.irVal r.irVal]) := by
  rcases hs with hf | hi
  · exact ⟨fp, by simp [cmpBody, hf, emit]⟩
  · have hnf := not_float_of_int _ hi
    by_cases hsg : l.ty.scalarTy.isSigned = true
    · exact ⟨sp, by simp [cmpBody, hnf, hi, hsg, emit]⟩
    · exact ⟨up, by simp [cmpBody, hnf, hi, hsg, emit]⟩

/-- C9: for every comparison operation on operands accepted by its type
checking, the returned frontend value carries the broadcast-and-promoted
operand type captured after binary_op_type_checking — not a bool/int1
frontend type (unless the operands themselves were bool) — while the
emitted instruction is a compare whose ir result type is int1 (block of
int1 for blocks). -/
theorem C9_compare_returns_operand_type (k : CmpKind) (lhs rhs l r : Value)
    (tr tr1 : List Instr)
    (h : binary_op_type_checking lhs rhs false false true .no tr = (.ok (l, r), tr1))
    (hs : l.ty.scalarTy.isFloatingPointTy = true ∨ l.ty.scalarTy.isIntegerTy = true) :
    ∃ (p : CmpPred) (v : Value),
      compareK k lhs rhs tr = (.ok v, tr1 ++ [.cmp p l.irVal r.irVal]) ∧
      v.ty = l.ty ∧
      v.irTy = l.irTy.withScalar (.int 1) ∧
      (l.ty.scalarTy.isBoolTy = false → v.ty.scalarTy.isBoolTy = false) := by
  have hwrap : ∀ p0 : CmpPred,
      (⟨.res tr1.length, l.irTy.withScalar (.int 1), l.ty⟩ : Value).ty = l.ty ∧
      (⟨.res tr1.length, l.irTy.withScalar (.int 1), l.ty⟩ : Value).irTy =
        l.irTy.withScalar (.int 1) ∧
      (l.ty.scalarTy.isBoolTy = false →
        (⟨.res tr1.length, l.irTy.withScalar (.int 1), l.ty⟩ : Value).ty.scalarTy.isBoolTy
          = false) := by
    intro p0
    exact ⟨rfl, rfl, fun hb => hb⟩
  cases k
  case gt =>
    obtain ⟨p, hp⟩ := cmpBody_spec "greater_than" .fOGT .iSGT .iUGT l r tr1 hs
    refine ⟨p, _, ?_, (hwrap p).1, (hwrap p).2.1, (hwrap p).2.2⟩
    simp [compareK, greater_than, h, hp]
  case ge =>
    obtain ⟨p, hp⟩ := cmpBody_spec "greater_equal" .fOGE .iSGE .iUGE l r tr1 hs
    refine ⟨p, _, ?_, (hwrap p).1, (hwrap p).2.1, (hwrap p).2.2⟩
    simp [compareK, greater_equal, h, hp]
  case lt =>
    obtain ⟨p, hp⟩ := cmpBody_spec "less_than" .fOLT .iSLT .iULT l r tr1 hs
    refine ⟨p, _, ?_, (hwrap p).1, (hwrap p).2.1, (hwrap p).2.2⟩
    simp [compareK, less_than, h, hp]
  case le =>
    obtain ⟨p, hp⟩ := cmpBody_spec "less_equal" .fOLE .iSLE .iULE l r tr1 hs
    refine ⟨p, _, ?_, (hwrap p).1, (hwrap p).2.1, (hwrap p).2.2⟩
    simp [compareK, less_equal, h, hp]
  case eq =>
    rcases hs with hf | hi
    · refine ⟨.fOEQ, _, ?_, (hwrap .fOEQ).1, (hwrap .fOEQ).2.1, (hwrap .fOEQ).2.2⟩
      simp [compareK, equal, h, hf, emit]
    · have hnf := not_float_of_int _ hi
      refine ⟨.iEQ, _, ?_, (hwrap .iEQ).1, (hwrap .iEQ).2.1, (hwrap .iEQ).2.2⟩
      simp [compareK, equal, h, hnf, hi, emit]
  case ne =>
    have h8 : binary_op_type_checkingF 8 lhs rhs false false true .no tr =
        (.ok (l, r), tr1) := h
    rcases hs with hf | hi
    · refine ⟨.fUNE, _, ?_, (hwrap .fUNE).1, (hwrap .fUNE).2.1, (hwrap .fUNE).2.2⟩
      simp [compareK, not_equal, dispatchFuel, not_equalF, h8, hf, emit]
    · have hnf := not_float_of_int _ hi
      refine ⟨.iNE, _, ?_, (hwrap .iNE).1, (hwrap .iNE).2.1, (hwrap .iNE).2.2⟩
      simp [compareK, not_equal, dispatchFuel, not_equalF, h8, hnf, hi, emit]

/-- C9 witness: greater_than on two scalar int32 values emits a signed
icmp, wrapped with the int32 operand type. -/
theorem C9_witness :
    ∃ (p : CmpPred) (v : Value),
      compareK .gt ⟨.arg 0, .scalar (.int 32), int32T⟩ ⟨.arg 1, .scalar (.int 32), int32T⟩ [] =
        (.ok v, [] ++ [.cmp p (.arg 0) (.arg 1)]) ∧
      v.ty = int32T ∧
      v.irTy = IRType.withScalar (.scalar (.int 32)) (.int 1) ∧
      (AstType.isBoolTy (AstType.scalarTy int32T) = false →
        v.ty.scalarTy.isBoolTy = false) := by
  exact C9_compare_returns_operand_type .gt
    ⟨.arg 0, .scalar (.int 32), int32T⟩ ⟨.arg 1, .scalar (.int 32), int32T⟩
    ⟨.arg 0, .scalar (.int 32), int32T⟩ ⟨.arg 1, .scalar (.int 32), int32T⟩
    [] [] (by rfl) (Or.inr (by decide))

/-! ## Claim C2: pairwise broadcast of two blocks -/

/-- When every dimension pair is one of (1,k), (k,1), (k,k) and all
entries are at least 1, the common-shape loop returns the pointwise
maximum of the two shapes. -/
lemma compatShape_ok (sl : List Nat) (sr : List Nat) (i : Nat)
    (hlen : sl.length = sr.length)
    (hpos : ∀ j, j < sl.length → 1 ≤ sl.getD j 0 ∧ 1 ≤ sr.getD j 0)
    (hc : ∀ j, j < sl.length → dimCompat (sl.getD j 0) (sr.getD j 0)) :
    compatShape sl sr i = .ok (List.zipWith max sl sr) := by
  induction sl generalizing sr i with
  | nil =>
    cases sr with
    | nil => rfl
    | cons r rs => simp at hlen
  | cons l ls ih =>
    cases sr with
    | nil => simp at hlen
    | cons r rs =>
      have h0c := hc 0 (by simp)
      have h0p := hpos 0 (by simp)
      simp only [List.getD_cons_zero] at h0c h0p
      have hrec := ih rs (i + 1) (by simpa using hlen)
        (fun j hj => by simpa using hpos (j + 1) (by simpa using Nat.succ_lt_succ hj))
        (fun j hj => by simpa using hc (j + 1) (by simpa using Nat.succ_lt_succ hj))
      by_cases hl1 : l = 1
      · subst hl1
        simp [compatShape, hrec, Nat.max_eq_right h0p.2, Except.map]
      · by_cases hr1 : r = 1
        · subst hr1
          simp [compatShape, hl1, hrec, Nat.max_eq_left h0p.1, Except.map]
        · have hlr : l = r := by
            rcases h0c with h | h | h
            · exact absurd h hl1
            · exact absurd h hr1
            · exact h
          subst hlr
          simp [compatShape, hl1, hrec, Except.map]

/-- When the first incompatible dimension pair is at index j, the
common-shape loop fails with the error naming index i + j and the two
dimensions. -/
lemma compatShape_err (sl : List Nat) (sr : List Nat) (i j : Nat)
    (hlen : sl.length = sr.length) (hj : j < sl.length)
    (hbad : ¬ dimCompat (sl.getD j 0) (sr.getD j 0))
    (hgood : ∀ k, k < j → dimCompat (sl.getD k 0) (sr.getD k 0)) :
    compatShape sl sr i = .error (dimMismatchErr (i + j) (sl.getD j 0) (sr.getD j 0)) := by
  induction sl generalizing sr i j with
  | nil => simp at hj
  | cons l ls ih =>
    cases sr with
    | nil => simp at hlen
    | cons r rs =>
      cases j with
      | zero =>
        simp only [List.getD_cons_zero] at hbad ⊢
        have hl1 : ¬ l = 1 := fun h => hbad (Or.inl h)
        have hr1 : ¬ r = 1 := fun h => hbad (Or.inr (Or.inl h))
        have hlr : ¬ l = r := fun h => hbad (Or.inr (Or.inr h))
        simp [compatShape, hl1, hr1, hlr]
      | succ j =>
        have h0 := hgood 0 (Nat.succ_pos j)
        simp only [List.getD_cons_zero] at h0
        have hrec := ih rs (i + 1) j (by simpa using hlen) (by simpa using hj)
          (by simpa using hbad)
          (fun k hk => by simpa using hgood (k + 1) (Nat.succ_lt_succ hk))
        have hidx : i + 1 + j = i + (j + 1) := by omega
        by_cases hl1 : l = 1
        · subst hl1
          simp [compatShape, hrec, hidx, Except.map]
        · by_cases hr1 : r = 1
          · subst hr1
            simp [compatShape, hl1, hrec, hidx, Except.map]
          · rcases h0 with h | h | h
            · exact absurd h hl1
            · exact absurd h hr1
            · subst h
              simp [compatShape, hl1, hrec, hidx, Except.map]

/-- C2: for two block values of equal rank whose dimension pairs all
match (1,k), (k,1) or (k,k), the pairwise broadcast succeeds and both
returned ir::values have the common shape S with S[i] = max of the two
dimensions; if the ranks differ it fails with the rank error, and if some
dimension pair matches none of the combinations it fails with the error
naming the first bad index and its two dimensions. -/
theorem C2_broadcast_completeness (lhs rhs : Value) (el er : IRScalar)
    (sl sr : List Nat) (tr : List Instr)
    (hl : lhs.ty.irTy = .block el sl) (hr : rhs.ty.irTy = .block er sr)
    (hwl : lhs.irTy = lhs.ty.irTy) (hwr : rhs.irTy = rhs.ty.irTy) :
    ((sl.length = sr.length ∧
      (∀ j, j < sl.length → 1 ≤ sl.getD j 0 ∧ 1 ≤ sr.getD j 0) ∧
      (∀ j, j < sl.length → dimCompat (sl.getD j 0) (sr.getD j 0))) →
      ∃ (l2 r2 : Value) (tr2 : List Instr),
        broadcastPair lhs rhs tr = (.ok (l2, r2), tr2) ∧
        l2.irTy = .block el (List.zipWith max sl sr) ∧
        r2.irTy = .block er (List.zipWith max sl sr) ∧
        (List.zipWith max sl sr).length = sl.length ∧
        (List.zipWith max sl sr).length = sr.length ∧
        ∀ j, j < sl.length →
          (List.zipWith max sl sr).getD j 0 = max (sl.getD j 0) (sr.getD j 0)) ∧
    (sl.length ≠ sr.length → broadcastPair lhs rhs tr = (.error rankMismatchErr, tr)) ∧
    (∀ j, sl.length = sr.length → j < sl.length →
      ¬ dimCompat (sl.getD j 0) (sr.getD j 0) →
      (∀ k, k < j → dimCompat (sl.getD k 0) (sr.getD k 0)) →
      broadcastPair lhs rhs tr =
        (.error (dimMismatchErr j (sl.getD j 0) (sr.getD j 0)), tr)) := by
  have hb1 : lhs.ty.isBlock = true := by simp [AstType.isBlock, hl]
  have hb2 : rhs.ty.isBlock = true := by simp [AstType.isBlock, hr]
  refine ⟨?_, ?_, ?_⟩
  · rintro ⟨hlen, hpos, hc⟩
    have hcs := compatShape_ok sl sr 0 hlen hpos hc
    have hlenS : (List.zipWith max sl sr).length = sl.length := by
      simp [List.length_zipWith]
      omega
    have hlenS2 : (List.zipWith max sl sr).length = sr.length := by omega
    have hget : ∀ j, j < sl.length →
        (List.zipWith max sl sr).getD j 0 = max (sl.getD j 0) (sr.getD j 0) := by
      intro j hj
      have hj2 : j < sr.length := hlen ▸ hj
      have hjS : j < (List.zipWith max sl sr).length := by omega
      rw [List.getD_eq_getElem _ _ hjS, List.getD_eq_getElem _ _ hj,
        List.getD_eq_getElem _ _ hj2]
      simp
    by_cases hsl : sl ≠ List.zipWith max sl sr <;>
      by_cases hsr : sr ≠ List.zipWith max sl sr
    · refine ⟨⟨.res tr.length, .block el (List.zipWith max sl sr), lhs.ty⟩,
        ⟨.res (tr.length + 1), .block er (List.zipWith max sl sr), rhs.ty⟩,
        tr ++ [.broadcastI lhs.irVal (List.zipWith max sl sr),
               .broadcastI rhs.irVal (List.zipWith max sl sr)], ?_,
        rfl, rfl, hlenS, hlenS2, hget⟩
      simp [broadcastPair, hb1, hb2, hl, hr, hlen, hcs, hsl, hsr, emit, hwl, hwr]
    · push_neg at hsr
      have hsrne : ¬ (sr ≠ List.zipWith max sl sr) := not_not_intro hsr
      refine ⟨⟨.res tr.length, .block el (List.zipWith max sl sr), lhs.ty⟩, rhs,
        tr ++ [.broadcastI lhs.irVal (List.zipWith max sl sr)], ?_,
        rfl, by rw [hwr, hr]; exact congrArg (IRType.block er) hsr, hlenS, hlenS2, hget⟩
      simp [broadcastPair, hb1, hb2, hl, hr, hlen, hcs, hsl, hsrne, emit, hwl, hwr]
    · push_neg at hsl
      have hslne : ¬ (sl ≠ List.zipWith max sl sr) := not_not_intro hsl
      refine ⟨lhs, ⟨.res tr.length, .block er (List.zipWith max sl sr), rhs.ty⟩,
        tr ++ [.broadcastI rhs.irVal (List.zipWith max sl sr)], ?_,
        by rw [hwl, hl]; exact congrArg (IRType.block el) hsl, rfl, hlenS, hlenS2, hget⟩
      simp [broadcastPair, hb1, hb2, hl, hr, hlen, hcs, hslne, hsr, emit, hwl, hwr]
    · push_neg at hsl hsr
      have hslne : ¬ (sl ≠ List.zipWith max sl sr) := not_not_intro hsl
      have hsrne : ¬ (sr ≠ List.zipWith max sl sr) := not_not_intro hsr
      refine ⟨lhs, rhs, tr, ?_,
        by rw [hwl, hl]; exact congrArg (IRType.block el) hsl,
        by rw [hwr, hr]; exact congrArg (IRType.block er) hsr,
        hlenS, hlenS2, hget⟩
      simp [broadcastPair, hb1, hb2, hl, hr, hlen, hcs, hslne, hsrne]
  · intro hlen
    simp [broadcastPair, hb1, hb2, hl, hr, hlen]
  · intro j hlen hj hbad hgood
    have hcs := compatShape_err sl sr 0 j hlen hj hbad hgood
    simp only [Nat.zero_add] at hcs
    simp [broadcastPair, hb1, hb2, hl, hr, hlen, hcs]

/-- C2 witness: blocks of shape [1, 8] and [4, 1] broadcast to the common
shape [4, 8], both sides receiving a broadcast instruction. -/
theorem C2_witness :
    ∃ (l2 r2 : Value) (tr2 : List Instr),
      broadcastPair ⟨.arg 3, .block .fp32 [1, 8], ⟨.block .fp32 [1, 8], .signed⟩⟩
          ⟨.arg 4, .block .fp32 [4, 1], ⟨.block .fp32 [4, 1], .signed⟩⟩ [] =
        (.ok (l2, r2), tr2) ∧
      l2.irTy = .block .fp32 (List.zipWith max [1, 8] [4, 1]) ∧
      r2.irTy = .block .fp32 (List.zipWith max [1, 8] [4, 1]) ∧
      (List.zipWith max [1, 8] [4, 1]).length = [1, 8].length ∧
      (List.zipWith max [1, 8] [4, 1]).length = [4, 1].length ∧
      ∀ j, j < [1, 8].length →
        (List.zipWith max [1, 8] [4, 1]).getD j 0 =
          max ([1, 8].getD j 0) ([4, 1].getD j 0) := by
  have h := C2_broadcast_completeness
    ⟨.arg 3, .block .fp32 [1, 8], ⟨.block .fp32 [1, 8], .signed⟩⟩
    ⟨.arg 4, .block .fp32 [4, 1], ⟨.block .fp32 [4, 1], .signed⟩⟩
    .fp32 .fp32 [1, 8] [4, 1] [] rfl rfl rfl rfl
  exact h.1 ⟨by decide, by decide, by decide⟩

/-! ## Claim C8: inlining a callee with two returns -/

namespace Inline

/-- Argument substitution never touches a branch. -/
lemma substAllArgs_br (src tgt : List Nat) (t : String) :
    substAllArgs src tgt (.br t) = .br t := by
  unfold substAllArgs
  generalize List.range src.length = idxs
  induction idxs with
  | nil => rfl
  | cons a as ih => simpa [Inst.substVal] using ih

/-- Block substitution keeps a branch whose target is none of the callee
block names. -/
lemma substAllBlocks_br (F : Func) (t : String)
    (h : ∀ b ∈ F.blocks, b.name ≠ t) :
    substAllBlocks F (.br t) = .br t := by
  unfold substAllBlocks
  have key : ∀ idxs : List Nat, (∀ k ∈ idxs, k < F.blocks.length) →
      idxs.foldl
        (fun (inst : Inst) k =>
          Inst.substBlock ((F.blocks.getD k ⟨"", []⟩).name) (tgtName F k) inst)
        (.br t) = .br t := by
    intro idxs
    induction idxs with
    | nil => intro _; rfl
    | cons a as ih =>
      intro hmem
      have ha : a < F.blocks.length := hmem a (by simp)
      have hname : (F.blocks.getD a ⟨"", []⟩).name ≠ t := by
        refine h _ ?_
        rw [List.getD_eq_getElem _ _ ha]
        exact List.getElem_mem ha
      have hne : ¬ t = (F.blocks.getD a ⟨"", []⟩).name := fun hh => hname hh.symm
      simp only [List.foldl_cons, Inst.substBlock, if_neg hne]
      exact ih (fun k hk => hmem k (by simp [hk]))
  refine key _ ?_
  intro k hk
  exact List.mem_range.mp hk

/-- Cloning a return yields a branch to the exit block (when the exit
name is fresh) and records the return value as a phi incoming. -/
lemma processInst_ret (F : Func) (targs : List Nat) (exitName newName : String)
    (v : Nat) (hfresh : ∀ b ∈ F.blocks, b.name ≠ exitName) :
    processInst F targs exitName newName (.ret (some v)) =
      (.br exitName, [(v, newName)]) := by
  simp [processInst, substAllBlocks_br F exitName hfresh, substAllArgs_br]

/-- The incomings collected from a cloned block are exactly the
retIncomings of its instruction list. -/
lemma processBlock_snd (F : Func) (targs : List Nat) (exitName newName : String)
    (insts : List Inst) :
    (processBlock F targs exitName newName insts).2 = retIncomings newName insts := by
  induction insts with
  | nil => rfl
  | cons i rest ih =>
    cases i with
    | ret v =>
      cases v with
      | none => simpa [processBlock, processInst, retIncomings] using ih
      | some rv =>
        simp only [processBlock, processInst, retIncomings, List.flatMap_cons]
        rw [← retIncomings]
        simp [ih]
    | op id uses => simpa [processBlock, processInst, retIncomings] using ih
    | call id c as => simpa [processBlock, processInst, retIncomings] using ih
    | br t => simpa [processBlock, processInst, retIncomings] using ih
    | phi id inc => simpa [processBlock, processInst, retIncomings] using ih

/-- retIncomings only looks at the return instructions. -/
lemma retIncomings_filter (newName : String) (insts : List Inst) :
    retIncomings newName insts = retIncomings newName (insts.filter Inst.isRet) := by
  induction insts with
  | nil => rfl
  | cons i rest ih =>
    cases i with
    | ret v =>
      cases v <;> simp [retIncomings, Inst.isRet, List.filter_cons] <;>
        rw [← retIncomings, ← retIncomings, ih]
    | op id uses => simpa [retIncomings, Inst.isRet, List.filter_cons] using ih
    | call id c as => simpa [retIncomings, Inst.isRet, List.filter_cons] using ih
    | br t => simpa [retIncomings, Inst.isRet, List.filter_cons] using ih
    | phi id inc => simpa [retIncomings, Inst.isRet, List.filter_cons] using ih

/-- A block whose instructions contain a value-carrying return clones to
a block containing a branch to exit. -/
lemma processBlock_br_mem (F : Func) (targs : List Nat) (exitName newName : String)
    (insts : List Inst) (v : Nat)
    (hfresh : ∀ b ∈ F.blocks, b.name ≠ exitName)
    (hmem : Inst.ret (some v) ∈ insts) :
    Inst.br exitName ∈ (processBlock F targs exitName newName insts).1 := by
  induction insts with
  | nil => simp at hmem
  | cons i rest ih =>
    rcases List.mem_cons.mp hmem with h | h
    · subst h
      simp [processBlock, processInst_ret F targs exitName newName v hfresh]
    · simp only [processBlock]
      exact List.mem_cons.mpr (Or.inr (ih h))

/-- Flatten of a pointwise-defined family that is empty except in one
spot. -/
lemma flatten_one_spot {α : Type} (g : Nat → List α) (n i1 : Nat) (x : α)
    (h1 : i1 < n) (hg1 : g i1 = [x])
    (hother : ∀ j, j < n → j ≠ i1 → g j = []) :
    ((List.range n).map g).flatten = [x] := by
  induction n with
  | zero => omega
  | succ n ih =>
    rw [List.range_succ, List.map_append, List.flatten_append]
    by_cases hn : i1 = n
    · subst hn
      have hpre : ((List.range i1).map g).flatten = [] := by
        rw [List.flatten_eq_nil_iff]
        intro l hl
        rcases List.mem_map.mp hl with ⟨j, hj, rfl⟩
        exact hother j (Nat.lt_succ_of_lt (List.mem_range.mp hj)) (Nat.ne_of_lt (List.mem_range.mp hj))
      simp [hpre, hg1]
    · have hlast : g n = [] := hother n (Nat.lt_succ_self n) (fun hh => hn hh.symm)
      have := ih (by omega)
      simp [hlast, this (fun j hj hne => hother j (Nat.lt_succ_of_lt hj) hne)]

/-- Flatten of a pointwise-defined family that is empty except in two
spots, in order. -/
lemma flatten_two_spots {α : Type} (g : Nat → List α) (n i1 i2 : Nat) (x y : α)
    (h12 : i1 < i2) (h2 : i2 < n)
    (hg1 : g i1 = [x]) (hg2 : g i2 = [y])
    (hother : ∀ j, j < n → j ≠ i1 → j ≠ i2 → g j = []) :
    ((List.range n).map g).flatten = [x, y] := by
  induction n with
  | zero => omega
  | succ n ih =>
    rw [List.range_succ, List.map_append, List.flatten_append]
    by_cases hn : i2 = n
    · subst hn
      have hpre : ((List.range i2).map g).flatten = [x] := by
        refine flatten_one_spot g i2 i1 x h12 hg1 ?_
        intro j hj hne
        exact hother j (Nat.lt_succ_of_lt hj) hne (Nat.ne_of_lt hj)
      simp [hpre, hg2]
    · have hlast : g n = [] :=
        hother n (Nat.lt_succ_self n) (by omega) (fun hh => hn hh.symm)
      have := ih (by omega) (fun j hj hn1 hn2 => hother j (Nat.lt_succ_of_lt hj) hn1 hn2)
      simp [hlast, this]

/-- The structure of the caller after do_inline when the callee has
exactly two value-carrying returns, in distinct blocks i1 < i2: the exit
block sits right after the entry block at index p + 1, keeps the split
block name, and holds exactly one phi, whose two incomings pair the two
returned values with the blocks their returns were cloned into; those two
blocks each contain a branch to the exit block. -/
lemma do_inline_spec (F G G2 : Func) (P : BasicBlock) (p ci cid phiId : Nat)
    (args : List Nat) (i1 i2 v1 v2 : Nat)
    (hG2 : G2 = do_inline F G p ci phiId)
    (hp : p < G.blocks.length)
    (hP : G.blocks.getD p ⟨"", []⟩ = P)
    (hci : ci < P.insts.length)
    (hcall : P.insts.getD ci (.ret none) = .call cid F.name args)
    (hnophi : ∀ i ∈ P.insts.drop ci, i.isPhi = false)
    (h12 : i1 < i2) (hi2 : i2 < F.blocks.length)
    (hr1 : (F.blocks.getD i1 ⟨"", []⟩).insts.filter Inst.isRet = [.ret (some v1)])
    (hr2 : (F.blocks.getD i2 ⟨"", []⟩).insts.filter Inst.isRet = [.ret (some v2)])
    (hrother : ∀ j, j < F.blocks.length → j ≠ i1 → j ≠ i2 →
      (F.blocks.getD j ⟨"", []⟩).insts.filter Inst.isRet = [])
    (hfresh : ∀ b ∈ F.blocks, b.name ≠ P.name) :
    G2.name = G.name ∧
    (G2.blocks.getD (p + 1) ⟨"", []⟩).name = P.name ∧
    (G2.blocks.getD (p + 1) ⟨"", []⟩).insts.filter Inst.isPhi =
      [.phi phiId [(v1, tgtName F i1), (v2, tgtName F i2)]] ∧
    (∃ b1 ∈ G2.blocks, b1.name = tgtName F i1 ∧ Inst.br P.name ∈ b1.insts) ∧
    (∃ b2 ∈ G2.blocks, b2.name = tgtName F i2 ∧ Inst.br P.name ∈ b2.insts) := by
  have hmem1 : Inst.ret (some v1) ∈ (F.blocks.getD i1 ⟨"", []⟩).insts := by
    have : Inst.ret (some v1) ∈ (F.blocks.getD i1 ⟨"", []⟩).insts.filter Inst.isRet := by
      rw [hr1]; exact List.mem_singleton_self _
    exact List.mem_of_mem_filter this
  have hmem2 : Inst.ret (some v2) ∈ (F.blocks.getD i2 ⟨"", []⟩).insts := by
    have : Inst.ret (some v2) ∈ (F.blocks.getD i2 ⟨"", []⟩).insts.filter Inst.isRet := by
      rw [hr2]; exact List.mem_singleton_self _
    exact List.mem_of_mem_filter this
  -- the collected phi incomings
  have hinc : ((List.range F.blocks.length).map fun i =>
        processBlock F args P.name (tgtName F i)
          ((F.blocks.getD i ⟨"", []⟩).insts)).flatMap Prod.snd =
      [(v1, tgtName F i1), (v2, tgtName F i2)] := by
    rw [List.flatMap_def, List.map_map]
    have hmapeq : (List.range F.blocks.length).map
        (Prod.snd ∘ fun i => processBlock F args P.name (tgtName F i)
          ((F.blocks.getD i ⟨"", []⟩).insts)) =
        (List.range F.blocks.length).map
          (fun i => retIncomings (tgtName F i) ((F.blocks.getD i ⟨"", []⟩).insts)) := by
      refine List.map_congr_left ?_
      intro i _
      simp [processBlock_snd]
    rw [hmapeq]
    refine flatten_two_spots _ F.blocks.length i1 i2 _ _ h12 hi2 ?_ ?_ ?_
    · rw [retIncomings_filter, hr1]
      simp [retIncomings]
    · rw [retIncomings_filter, hr2]
      simp [retIncomings]
    · intro j hj hn1 hn2
      rw [retIncomings_filter, hrother j hj hn1 hn2]
      rfl
  -- the suffix of the split block starts with the call
  have hdrop : P.insts.drop ci = .call cid F.name args :: P.insts.drop (ci + 1) := by
    rw [List.drop_eq_getElem_cons hci]
    congr 1
    rw [← List.getD_eq_getElem P.insts (Inst.ret none) hci]
    exact hcall
  have hifnp : ∀ inc0 : List (Nat × String),
      insertAtFirstNonPhi (.phi phiId inc0) (P.insts.drop ci) =
        .phi phiId inc0 :: P.insts.drop ci := by
    intro inc0
    rw [hdrop]
    simp [insertAtFirstNonPhi, Inst.isPhi]
  -- the block list of the rewritten caller
  have hblocks : G2.blocks =
      G.blocks.take p ++
        ⟨F.name, P.insts.take ci ++
          (((List.range F.blocks.length).map fun i =>
              processBlock F args P.name (tgtName F i)
                ((F.blocks.getD i ⟨"", []⟩).insts)).getD 0 ([], [])).1⟩ ::
        ⟨P.name, .phi phiId [(v1, tgtName F i1), (v2, tgtName F i2)] ::
          P.insts.drop ci⟩ ::
        (G.blocks.drop (p + 1) ++
          (List.range (F.blocks.length - 1)).map fun j =>
            BasicBlock.mk (tgtName F (j + 1))
              (((List.range F.blocks.length).map fun i =>
                  processBlock F args P.name (tgtName F i)
                    ((F.blocks.getD i ⟨"", []⟩).insts)).getD (j + 1) ([], [])).1) := by
    rw [hG2]
    simp only [do_inline, hP, hcall, callArgsOf, hinc, hifnp]
    simp [List.append_assoc]
  -- the exit block is at p + 1
  have htake : (G.blocks.take p).length = p := by
    simp [List.length_take]
    omega
  have hexit : G2.blocks.getD (p + 1) ⟨"", []⟩ =
      ⟨P.name, .phi phiId [(v1, tgtName F i1), (v2, tgtName F i2)] ::
        P.insts.drop ci⟩ := by
    rw [hblocks]
    rw [List.getD_append_right]
    · rw [htake]
      simp
    · omega
  -- number of clone target blocks
  have hclolen : ((List.range F.blocks.length).map fun i =>
      processBlock F args P.name (tgtName F i)
        ((F.blocks.getD i ⟨"", []⟩).insts)).length = F.blocks.length := by
    simp
  have hcloget : ∀ i, i < F.blocks.length →
      ((List.range F.blocks.length).map fun i =>
        processBlock F args P.name (tgtName F i)
          ((F.blocks.getD i ⟨"", []⟩).insts)).getD i ([], []) =
        processBlock F args P.name (tgtName F i) ((F.blocks.getD i ⟨"", []⟩).insts) := by
    intro i hi
    rw [List.getD_eq_getElem _ _ (by simpa using hi)]
    simp
  refine ⟨by rw [hG2]; rfl, by rw [hexit], by
    rw [hexit]
    simp only [List.filter_cons]
    have : (Inst.phi phiId [(v1, tgtName F i1), (v2, tgtName F i2)]).isPhi = true := rfl
    rw [if_pos this]
    have hnil : (P.insts.drop ci).filter Inst.isPhi = [] :=
      List.filter_eq_nil_iff.mpr (fun a ha => by simp [hnophi a ha])
    rw [hnil], ?_, ?_⟩
  · -- the block holding the clone of return 1
    by_cases h0 : i1 = 0
    · subst h0
      refine ⟨⟨F.name, P.insts.take ci ++
          (((List.range F.blocks.length).map fun i =>
              processBlock F args P.name (tgtName F i)
                ((F.blocks.getD i ⟨"", []⟩).insts)).getD 0 ([], [])).1⟩, ?_, rfl, ?_⟩
      · rw [hblocks]
        simp
      · rw [hcloget 0 (by omega)]
        refine List.mem_append_right _ ?_
        exact processBlock_br_mem F args P.name (tgtName F 0) _ v1 hfresh hmem1
    · refine ⟨⟨tgtName F i1,
        (((List.range F.blocks.length).map fun i =>
            processBlock F args P.name (tgtName F i)
              ((F.blocks.getD i ⟨"", []⟩).insts)).getD i1 ([], [])).1⟩, ?_, rfl, ?_⟩
      · rw [hblocks]
        refine List.mem_append_right _ ?_
        refine List.mem_cons.mpr (Or.inr (List.mem_cons.mpr (Or.inr ?_)))
        refine List.mem_append_right _ ?_
        refine List.mem_map.mpr ⟨i1 - 1, List.mem_range.mpr (by omega), ?_⟩
        have : i1 - 1 + 1 = i1 := by omega
        rw [this]
      · rw [hcloget i1 (by omega)]
        exact processBlock_br_mem F args P.name (tgtName F i1) _ v1 hfresh hmem1
  · -- the block holding the clone of return 2 (i2 is at least 1)
    refine ⟨⟨tgtName F i2,
      (((List.range F.blocks.length).map fun i =>
          processBlock F args P.name (tgtName F i)
            ((F.blocks.getD i ⟨"", []⟩).insts)).getD i2 ([], [])).1⟩, ?_, rfl, ?_⟩
    · rw [hblocks]
      refine List.mem_append_right _ ?_
      refine List.mem_cons.mpr (Or.inr (List.mem_cons.mpr (Or.inr ?_)))
      refine List.mem_append_right _ ?_
      refine List.mem_map.mpr ⟨i2 - 1, List.mem_range.mpr (by omega), ?_⟩
      have : i2 - 1 + 1 = i2 := by omega
      rw [this]
    · rw [hcloget i2 (by omega)]
      exact processBlock_br_mem F args P.name (tgtName F i2) _ v2 hfresh hmem2

/-- The callee name is a strict proper front of every cloned-block name,
so the entry block never collides with a cloned block. -/
lemma newBlockName_ne_base (a b : String) : a ≠ newBlockName a b := by
  intro h
  have hlen := congrArg String.length h
  have h1 : ("_" : String).length = 1 := rfl
  simp [newBlockName, String.length_append, h1] at hlen
  omega

/-- Cloned-block names are injective in the block name. -/
lemma newBlockName_ne (a x y : String) (h : x ≠ y) :
    newBlockName a x ≠ newBlockName a y := by
  intro hh
  apply h
  have hdata := congrArg String.data hh
  simp only [newBlockName, String.data_append] at hdata
  have hxy := List.append_cancel_left hdata
  cases x
  cases y
  exact congrArg String.mk (by simpa using hxy)

/-- Distinct indices of a function with pairwise-distinct block names
give distinct block names. -/
lemma blocks_name_ne (F : Func) (i j : Nat)
    (hnodup : (F.blocks.map fun b => b.name).Nodup)
    (hi : i < F.blocks.length) (hj : j < F.blocks.length) (hne : i ≠ j) :
    (F.blocks.getD i ⟨"", []⟩).name ≠ (F.blocks.getD j ⟨"", []⟩).name := by
  rw [List.getD_eq_getElem _ _ hi, List.getD_eq_getElem _ _ hj]
  intro h
  have hi2 : i < (F.blocks.map fun b => b.name).length := by simpa using hi
  have hj2 : j < (F.blocks.map fun b => b.name).length := by simpa using hj
  have hmap : (F.blocks.map fun b => b.name)[i] = (F.blocks.map fun b => b.name)[j] := by
    simpa using h
  exact hne (List.Nodup.getElem_inj_iff hnodup |>.mp hmap)

/-- The clone target names are pairwise distinct for distinct callee
block indices. -/
lemma tgtName_ne (F : Func) (i j : Nat)
    (hnodup : (F.blocks.map fun b => b.name).Nodup)
    (hi : i < F.blocks.length) (hj : j < F.blocks.length) (hne : i ≠ j) :
    tgtName F i ≠ tgtName F j := by
  unfold tgtName
  by_cases h0i : i = 0
  · subst h0i
    rw [if_pos rfl, if_neg (Ne.symm hne)]
    exact newBlockName_ne_base _ _
  · by_cases h0j : j = 0
    · subst h0j
      rw [if_neg h0i, if_pos rfl]
      exact (newBlockName_ne_base _ _).symm
    · rw [if_neg h0i, if_neg h0j]
      exact newBlockName_ne _ _ _ (blocks_name_ne F i j hnodup hi hj hne)

end Inline

/-- C8: consider an inliner run on a module whose only call site is a
single call, in block p / instruction ci of caller G, to a callee F that
contains exactly two value-carrying returns located in distinct blocks
i1 < i2 (at most one return per block, as one terminator per block
demands), F having no calls of its own and the usual name-freshness and
block-name-distinctness of well-formed IR.  After the run: F is removed
from the module; the caller holds, right after the inlined entry block,
the exit block — the suffix of the split block, keeping its name — whose
only phi is the one created by do_inline, carrying exactly two incomings
that pair each returned value with the distinct cloned block holding the
corresponding return; and each of those two blocks contains a branch to
the exit block, the branch that replaced its return. -/
theorem C8_inliner_two_returns (M : Inline.Module) (F G : Inline.Func)
    (P : Inline.BasicBlock) (p ci cid phiId : Nat) (args : List Nat)
    (i1 i2 v1 v2 : Nat)
    (hFG : F.name ≠ G.name)
    (hfindF : M.funcs.find? (fun f => f.name = F.name) = some F)
    (hfindG : M.funcs.find? (fun f => f.name = G.name) = some G)
    (hsites : Inline.gatherSites M = [(F.name, ⟨G.name, p, ci⟩)])
    (hp : p < G.blocks.length)
    (hP : G.blocks.getD p ⟨"", []⟩ = P)
    (hci : ci < P.insts.length)
    (hcall : P.insts.getD ci (.ret none) = .call cid F.name args)
    (hnophi : ∀ i ∈ P.insts.drop ci, i.isPhi = false)
    (h12 : i1 < i2) (hi2 : i2 < F.blocks.length)
    (hr1 : (F.blocks.getD i1 ⟨"", []⟩).insts.filter Inline.Inst.isRet =
      [.ret (some v1)])
    (hr2 : (F.blocks.getD i2 ⟨"", []⟩).insts.filter Inline.Inst.isRet =
      [.ret (some v2)])
    (hrother : ∀ j, j < F.blocks.length → j ≠ i1 → j ≠ i2 →
      (F.blocks.getD j ⟨"", []⟩).insts.filter Inline.Inst.isRet = [])
    (hfresh : ∀ b ∈ F.blocks, b.name ≠ P.name)
    (hnodup : (F.blocks.map fun b => b.name).Nodup) :
    (∀ f ∈ (Inline.run M phiId).funcs, f.name ≠ F.name) ∧
    ∃ G2 ∈ (Inline.run M phiId).funcs,
      G2.name = G.name ∧
      (G2.blocks.getD (p + 1) ⟨"", []⟩).name = P.name ∧
      (G2.blocks.getD (p + 1) ⟨"", []⟩).insts.filter Inline.Inst.isPhi =
        [.phi phiId [(v1, Inline.tgtName F i1), (v2, Inline.tgtName F i2)]] ∧
      Inline.tgtName F i1 ≠ Inline.tgtName F i2 ∧
      (∃ b1 ∈ G2.blocks, b1.name = Inline.tgtName F i1 ∧
        Inline.Inst.br P.name ∈ b1.insts) ∧
      (∃ b2 ∈ G2.blocks, b2.name = Inline.tgtName F i2 ∧
        Inline.Inst.br P.name ∈ b2.insts) := by
  have hrun : Inline.run M phiId =
      Inline.removeFunc
        (Inline.replaceFunc M G.name (Inline.do_inline F G p ci phiId)) F.name := by
    unfold Inline.run
    rw [hsites]
    simp [Inline.inlineSiteInModule, hfindF, hfindG]
  have hspec := Inline.do_inline_spec F G (Inline.do_inline F G p ci phiId) P p ci cid
    phiId args i1 i2 v1 v2 rfl hp hP hci hcall hnophi h12 hi2 hr1 hr2 hrother hfresh
  refine ⟨?_, ?_⟩
  · intro f hf
    rw [hrun] at hf
    have := (List.mem_filter.mp hf).2
    simpa using this
  · refine ⟨Inline.do_inline F G p ci phiId, ?_, hspec.1, hspec.2.1, hspec.2.2.1,
      Inline.tgtName_ne F i1 i2 hnodup (by omega) hi2 (by omega),
      hspec.2.2.2.1, hspec.2.2.2.2⟩
    rw [hrun]
    refine List.mem_filter.mpr ⟨?_, ?_⟩
    · refine List.mem_map.mpr ⟨G, List.mem_of_find?_eq_some hfindG, ?_⟩
      simp
    · simp [hspec.1]
      exact Ne.symm hFG

/-- C8 witness: a concrete module in which g calls f once, and f returns
from two distinct blocks. -/
theorem C8_witness :
    (∀ f ∈ (Inline.run
        ⟨[⟨"f", [100], [⟨"b0", [.op 10 [100], .ret (some 10)]⟩,
                        ⟨"b1", [.ret (some 100)]⟩]⟩,
          ⟨"g", [], [⟨"gb", [.op 1 [], .call 2 "f" [1], .op 3 [2]]⟩]⟩]⟩ 77).funcs,
      f.name ≠ "f") ∧
    ∃ G2 ∈ (Inline.run
        ⟨[⟨"f", [100], [⟨"b0", [.op 10 [100], .ret (some 10)]⟩,
                        ⟨"b1", [.ret (some 100)]⟩]⟩,
          ⟨"g", [], [⟨"gb", [.op 1 [], .call 2 "f" [1], .op 3 [2]]⟩]⟩]⟩ 77).funcs,
      G2.name = "g" ∧
      (G2.blocks.getD 1 ⟨"", []⟩).name = "gb" ∧
      (G2.blocks.getD 1 ⟨"", []⟩).insts.filter Inline.Inst.isPhi =
        [.phi 77 [(10, Inline.tgtName ⟨"f", [100],
            [⟨"b0", [.op 10 [100], .ret (some 10)]⟩, ⟨"b1", [.ret (some 100)]⟩]⟩ 0),
          (100, Inline.tgtName ⟨"f", [100],
            [⟨"b0", [.op 10 [100], .ret (some 10)]⟩, ⟨"b1", [.ret (some 100)]⟩]⟩ 1)]] ∧
      Inline.tgtName ⟨"f", [100],
          [⟨"b0", [.op 10 [100], .ret (some 10)]⟩, ⟨"b1", [.ret (some 100)]⟩]⟩ 0 ≠
        Inline.tgtName ⟨"f", [100],
          [⟨"b0", [.op 10 [100], .ret (some 10)]⟩, ⟨"b1", [.ret (some 100)]⟩]⟩ 1 ∧
      (∃ b1 ∈ G2.blocks, b1.name = Inline.tgtName ⟨"f", [100],
          [⟨"b0", [.op 10 [100], .ret (some 10)]⟩, ⟨"b1", [.ret (some 100)]⟩]⟩ 0 ∧
        Inline.Inst.br "gb" ∈ b1.insts) ∧
      (∃ b2 ∈ G2.blocks, b2.name = Inline.tgtName ⟨"f", [100],
          [⟨"b0", [.op 10 [100], .ret (some 10)]⟩, ⟨"b1", [.ret (some 100)]⟩]⟩ 1 ∧
        Inline.Inst.br "gb" ∈ b2.insts) := by
  have h := C8_inliner_two_returns
    ⟨[⟨"f", [100], [⟨"b0", [.op 10 [100], .ret (some 10)]⟩,
                    ⟨"b1", [.ret (some 100)]⟩]⟩,
      ⟨"g", [], [⟨"gb", [.op 1 [], .call 2 "f" [1], .op 3 [2]]⟩]⟩]⟩
    ⟨"f", [100], [⟨"b0", [.op 10 [100], .ret (some 10)]⟩,
                  ⟨"b1", [.ret (some 100)]⟩]⟩
    ⟨"g", [], [⟨"gb", [.op 1 [], .call 2 "f" [1], .op 3 [2]]⟩]⟩
    ⟨"gb", [.op 1 [], .call 2 "f" [1], .op 3 [2]]⟩
    0 1 2 77 [1] 0 1 10 100
    (by decide) (by decide) (by decide) (by decide) (by decide) (by decide)
    (by decide) (by decide) (by decide) (by decide) (by decide) (by decide)
    (by decide)
    (by intro j hj hn1 hn2; simp at hj; omega)
    (by decide) (by decide)
  exact h

end Triton
